import Mathlib

/-!
Verification of the voxel-engine core of the Minecraft-Py repository.

This file gives a shallow embedding, in Lean 4, of the parts of the Python
source that the specification claims talk about:

* `src/world/blocks.py`   — the `BlockType` enumeration and the `Block`
  property functions (`is_opaque`, `is_transparent`, `get_light_emission`,
  `get_texture_id`),
* `src/world/chunk.py`    — `ChunkPosition`, `Chunk` storage
  (`get_block`, `set_block`, `_recalculate_height`), terrain generation
  (`generate`, `_get_block_type_at`), meshing (`build_mesh`,
  `_get_visible_faces`, `_get_face_vertices`) and persistence (`load`),
* `src/utils/light.py`    — the `LightEngine` flood-fill procedures,
* `src/world/world.py`    — the `World` chunk-lifecycle manager.

Modelling conventions:

* Python `dict`/`set` literals that mention enumeration attributes are
  embedded as lists of attribute *names* together with a name-resolution
  function built from the enumeration as it is actually declared in
  `blocks.py`; a reference to a member that does not exist becomes an
  `Except.error` carrying an AttributeError label, exactly where Python
  would raise while evaluating the literal.  Module-level name lookups
  (`os` in `chunk.py`, `random` in `world.py`) are embedded the same way
  against the list of names the module actually imports.
* numpy arrays become total functions from the linear index (an `Int`)
  to `Nat`; `np.uint8` / `np.uint16` stores reduce modulo 256 / 65536.
* The float-valued Perlin-noise pipeline (`NoiseGenerator.get_height`,
  `SimplexNoise.fast_noise`) is abstracted by oracle parameters: a fixed
  function standing for the deterministic value the seeded generator
  produces.  None of the claims analysed here depend on the numeric
  values of the noise, only on the control flow around them.
* Mesh vertices (Python floats whose values are small integers or exact
  multiples of 1/16) are represented by rationals.
* Recursive / worklist procedures of the light engine take an explicit
  fuel argument and return `none` when the fuel is exhausted; termination
  claims are stated as the existence of sufficient fuel.
-/

/-- The `BlockType` enumeration of `blocks.py`, in declaration order.
`auto()` numbers the members 1..71. -/
inductive BlockType where
  | AIR | STONE | GRASS | DIRT | COBBLESTONE | BEDROCK | SAND | GRAVEL
  | WATER | LAVA
  | COAL_ORE | IRON_ORE | GOLD_ORE | REDSTONE_ORE | LAPIS_ORE | DIAMOND_ORE
  | EMERALD_ORE
  | OAK_LOG | OAK_LEAVES | SPRUCE_LOG | SPRUCE_LEAVES | BIRCH_LOG
  | BIRCH_LEAVES | PLANKS | SAPLING | FLOWER | ROSE | DEAD_BUSH | MUSHROOM
  | MUSHROOM_BLOCK | SUGAR_CANE | CACTUS
  | GLASS | TNT | CRAFTING_TABLE | FURNACE | CHEST | BOOKSHELF | FENCE
  | FENCE_GATE | DOOR | TRAPDOOR | TORCH | LADDER | RAIL | LEVER | BUTTON
  | PRESSURE_PLATE | SIGN
  | WHITE_WOOL | ORANGE_WOOL | MAGENTA_WOOL | LIGHT_BLUE_WOOL | YELLOW_WOOL
  | LIME_WOOL | PINK_WOOL | GRAY_WOOL | LIGHT_GRAY_WOOL | CYAN_WOOL
  | PURPLE_WOOL | BLUE_WOOL | BROWN_WOOL | GREEN_WOOL | RED_WOOL | BLACK_WOOL
deriving DecidableEq

/-- All members of the enumeration in declaration order, paired with their
Python attribute names. -/
def BlockType.members : List (BlockType × String) :=
  [(.AIR, "AIR"), (.STONE, "STONE"), (.GRASS, "GRASS"), (.DIRT, "DIRT"),
   (.COBBLESTONE, "COBBLESTONE"), (.BEDROCK, "BEDROCK"), (.SAND, "SAND"),
   (.GRAVEL, "GRAVEL"), (.WATER, "WATER"), (.LAVA, "LAVA"),
   (.COAL_ORE, "COAL_ORE"), (.IRON_ORE, "IRON_ORE"), (.GOLD_ORE, "GOLD_ORE"),
   (.REDSTONE_ORE, "REDSTONE_ORE"), (.LAPIS_ORE, "LAPIS_ORE"),
   (.DIAMOND_ORE, "DIAMOND_ORE"), (.EMERALD_ORE, "EMERALD_ORE"),
   (.OAK_LOG, "OAK_LOG"), (.OAK_LEAVES, "OAK_LEAVES"),
   (.SPRUCE_LOG, "SPRUCE_LOG"), (.SPRUCE_LEAVES, "SPRUCE_LEAVES"),
   (.BIRCH_LOG, "BIRCH_LOG"), (.BIRCH_LEAVES, "BIRCH_LEAVES"),
   (.PLANKS, "PLANKS"), (.SAPLING, "SAPLING"), (.FLOWER, "FLOWER"),
   (.ROSE, "ROSE"), (.DEAD_BUSH, "DEAD_BUSH"), (.MUSHROOM, "MUSHROOM"),
   (.MUSHROOM_BLOCK, "MUSHROOM_BLOCK"), (.SUGAR_CANE, "SUGAR_CANE"),
   (.CACTUS, "CACTUS"), (.GLASS, "GLASS"), (.TNT, "TNT"),
   (.CRAFTING_TABLE, "CRAFTING_TABLE"), (.FURNACE, "FURNACE"),
   (.CHEST, "CHEST"), (.BOOKSHELF, "BOOKSHELF"), (.FENCE, "FENCE"),
   (.FENCE_GATE, "FENCE_GATE"), (.DOOR, "DOOR"), (.TRAPDOOR, "TRAPDOOR"),
   (.TORCH, "TORCH"), (.LADDER, "LADDER"), (.RAIL, "RAIL"),
   (.LEVER, "LEVER"), (.BUTTON, "BUTTON"),
   (.PRESSURE_PLATE, "PRESSURE_PLATE"), (.SIGN, "SIGN"),
   (.WHITE_WOOL, "WHITE_WOOL"), (.ORANGE_WOOL, "ORANGE_WOOL"),
   (.MAGENTA_WOOL, "MAGENTA_WOOL"), (.LIGHT_BLUE_WOOL, "LIGHT_BLUE_WOOL"),
   (.YELLOW_WOOL, "YELLOW_WOOL"), (.LIME_WOOL, "LIME_WOOL"),
   (.PINK_WOOL, "PINK_WOOL"), (.GRAY_WOOL, "GRAY_WOOL"),
   (.LIGHT_GRAY_WOOL, "LIGHT_GRAY_WOOL"), (.CYAN_WOOL, "CYAN_WOOL"),
   (.PURPLE_WOOL, "PURPLE_WOOL"), (.BLUE_WOOL, "BLUE_WOOL"),
   (.BROWN_WOOL, "BROWN_WOOL"), (.GREEN_WOOL, "GREEN_WOOL"),
   (.RED_WOOL, "RED_WOOL"), (.BLACK_WOOL, "BLACK_WOOL")]

/-- The integer value `auto()` assigns to a member (1-based position). -/
def BlockType.value (t : BlockType) : Nat :=
  (BlockType.members.map Prod.fst).indexOf t + 1

/-- Inverse of `BlockType.value`: the Python constructor `BlockType(v)`.
Returns `none` (Python: raises ValueError) when `v` is not the value of any
member; in particular the default array fill value 0 is not a member. -/
def BlockType.fromValue (v : Nat) : Option BlockType :=
  if v = 0 then none else (BlockType.members.map Prod.fst)[v - 1]?

/-- Python attribute lookup `BlockType.<name>`: resolves a name against the
members actually declared in `blocks.py`, raising AttributeError otherwise. -/
def BlockType.attr (n : String) : Except String BlockType :=
  match BlockType.members.find? (fun m => m.2 = n) with
  | some m => .ok m.1
  | none => .error ("AttributeError: " ++ n)

/-- The `Block` dataclass of `blocks.py` (the `tick_count` / `is_ticking`
bookkeeping fields play no role in any claim and are omitted). -/
structure Block where
  block_type : BlockType
  metadata : Nat := 0
  light_level : Nat := 0
  sky_light : Nat := 15
deriving DecidableEq

/-- The member names written in the `opaque_types` set literal of
`Block.is_opaque`, in source order. -/
def opaqueTypeNames : List String :=
  ["STONE", "GRASS", "DIRT", "COBBLESTONE", "BEDROCK", "SAND", "GRAVEL",
   "COAL_ORE", "IRON_ORE", "GOLD_ORE", "REDSTONE_ORE", "LAPIS_ORE",
   "DIAMOND_ORE", "EMERALD_ORE", "OAK_LOG", "SPRUCE_LOG", "BIRCH_LOG",
   "PLANKS", "BOOKSHELF", "MUSHROOM_BLOCK", "CHEST", "TNT", "CRAFTING_TABLE",
   "FURNACE", "WHITE_WOOL", "ORANGE_WOOL", "MAGENTA_WOOL", "LIGHT_BLUE_WOOL",
   "YELLOW_WOOL", "LIME_WOOL", "PINK_WOOL", "GRAY_WOOL", "LIGHT_GRAY_WOOL",
   "CYAN_WOOL", "PURPLE_WOOL", "BLUE_WOOL", "BROWN_WOOL", "GREEN_WOOL",
   "RED_WOOL", "BLACK_WOOL", "CACTUS"]

/-- The member names written in the `transparent_types` set literal of
`Block.is_transparent`, in source order.  Note the third entry, `LEAVES`,
which is not a member of the enumeration. -/
def transparentTypeNames : List String :=
  ["AIR", "GLASS", "LEAVES", "SAPLING", "FLOWER", "ROSE", "DEAD_BUSH",
   "MUSHROOM", "MUSHROOM_BLOCK", "TORCH", "FENCE", "FENCE_GATE", "DOOR",
   "TRAPDOOR", "LADDER", "RAIL", "LEVER", "BUTTON", "PRESSURE_PLATE", "SIGN",
   "SUGAR_CANE", "WATER", "LAVA"]

/-- The key names written in the `light_emitters` dict literal of
`Block.get_light_emission`, with their emission levels, in source order.
`FIRE`, `GLOWSTONE` and `JACK_O_LANTERN` are not members of the
enumeration. -/
def lightEmitterNames : List (String × Nat) :=
  [("TORCH", 14), ("LAVA", 15), ("FIRE", 15), ("GLOWSTONE", 15),
   ("JACK_O_LANTERN", 15)]

/-- Embedding of `Block.is_opaque` from `blocks.py`: the set literal is
evaluated (attribute lookups in source order), then membership is tested. -/
def Block.opaqueB (b : Block) : Except String Bool := do
  let tys ← opaqueTypeNames.mapM BlockType.attr
  pure (tys.contains b.block_type)

/-- Embedding of `Block.is_transparent` from `blocks.py`: evaluating the set
literal resolves each named attribute in order before any membership test. -/
def Block.transparentB (b : Block) : Except String Bool := do
  let tys ← transparentTypeNames.mapM BlockType.attr
  pure (tys.contains b.block_type)

/-- Embedding of `Block.get_light_emission` from `blocks.py`: the dict
literal is evaluated (keys in source order), then looked up with default 0. -/
def Block.lightEmission (b : Block) : Except String Nat := do
  let emitters ← lightEmitterNames.mapM
    (fun e => do let t ← BlockType.attr e.1; pure (t, e.2))
  pure ((emitters.find? (fun e => e.1 = b.block_type)).map Prod.snd |>.getD 0)

/-- The six face keys used by `chunk.py` (`top`, `bottom`, `front`, `back`,
`right`, `left`). -/
inductive Face where
  | top | bottom | front | back | right | left
deriving DecidableEq

/-- One entry of the `type_textures` dict in `Block.get_texture_id`:
the per-face texture keys that entry carries. -/
structure FaceTex where
  allT : Option Nat := none
  topT : Option Nat := none
  bottomT : Option Nat := none
  sideT : Option Nat := none
  frontT : Option Nat := none

/-- The `type_textures` dict literal of `Block.get_texture_id` (every key
named there is a real member of the enumeration, so the literal evaluates
without error and is embedded as a total lookup). -/
def typeTextures : BlockType → Option FaceTex
  | .GRASS => some { topT := some 0, bottomT := some 2, sideT := some 3 }
  | .DIRT => some { allT := some 2 }
  | .STONE => some { allT := some 1 }
  | .COBBLESTONE => some { allT := some 16 }
  | .BEDROCK => some { allT := some 17 }
  | .SAND => some { allT := some 18 }
  | .GRAVEL => some { allT := some 19 }
  | .WATER => some { allT := some 207 }
  | .LAVA => some { allT := some 225 }
  | .COAL_ORE => some { allT := some 20 }
  | .IRON_ORE => some { allT := some 21 }
  | .GOLD_ORE => some { allT := some 22 }
  | .REDSTONE_ORE => some { allT := some 23 }
  | .LAPIS_ORE => some { allT := some 24 }
  | .DIAMOND_ORE => some { allT := some 25 }
  | .EMERALD_ORE => some { allT := some 26 }
  | .OAK_LOG => some { topT := some 20, sideT := some 21 }
  | .SPRUCE_LOG => some { topT := some 20, sideT := some 22 }
  | .BIRCH_LOG => some { topT := some 20, sideT := some 23 }
  | .OAK_LEAVES => some { allT := some 4 }
  | .SPRUCE_LEAVES => some { allT := some 29 }
  | .BIRCH_LEAVES => some { allT := some 30 }
  | .PLANKS => some { allT := some 4 }
  | .GLASS => some { allT := some 49 }
  | .TNT => some { topT := some 226, bottomT := some 227, sideT := some 225 }
  | .CRAFTING_TABLE => some { topT := some 58, sideT := some 57, frontT := some 56 }
  | .FURNACE => some { topT := some 62, sideT := some 61, frontT := some 63 }
  | .CHEST => some { allT := some 54 }
  | .BOOKSHELF => some { allT := some 47 }
  | .FENCE => some { allT := some 85 }
  | .TORCH => some { allT := some 50 }
  | .LEVER => some { allT := some 69 }
  | .BUTTON => some { allT := some 77 }
  | .PRESSURE_PLATE => some { allT := some 72 }
  | .WHITE_WOOL => some { allT := some 64 }
  | .SUGAR_CANE => some { allT := some 73 }
  | .CACTUS => some { topT := some 70, sideT := some 71, bottomT := some 69 }
  | .SAPLING => some { allT := some 15 }
  | .FLOWER => some { allT := some 13 }
  | .ROSE => some { allT := some 12 }
  | _ => none

/-- Embedding of `Block.get_texture_id`: `all` wins, then the exact face
key, then `side` for the four lateral faces, default 1. -/
def Block.getTextureId (b : Block) (f : Face) : Nat :=
  match typeTextures b.block_type with
  | none => 1
  | some m =>
    match m.allT with
    | some t => t
    | none =>
      let exact : Option Nat :=
        match f with
        | .top => m.topT
        | .bottom => m.bottomT
        | .front => m.frontT
        | _ => none
      match exact with
      | some t => t
      | none =>
        match f with
        | .front | .back | .left | .right => m.sideT.getD 1
        | _ => 1

/-- The `ChunkPosition` class of `chunk.py`. -/
structure ChunkPosition where
  x : Int
  z : Int
deriving DecidableEq

/-- Chunk dimensions from `chunk.py`. -/
def CHUNK_WIDTH : Int := 16

def CHUNK_HEIGHT : Int := 256

def CHUNK_DEPTH : Int := 16

def CHUNK_VOLUME : Int := CHUNK_WIDTH * CHUNK_HEIGHT * CHUNK_DEPTH

/-- `ChunkPosition.from_world`: Python floor division `//` by the positive
constant 16 coincides with Euclidean division `Int.ediv`. -/
def ChunkPosition.fromWorld (world_x world_z : Int) : ChunkPosition :=
  ⟨world_x / CHUNK_WIDTH, world_z / CHUNK_DEPTH⟩

/-- `ChunkPosition.to_world` for block-relative coordinates. -/
def ChunkPosition.toWorld (p : ChunkPosition) (block_x block_z : Int) : Int × Int :=
  (p.x * CHUNK_WIDTH + block_x, p.z * CHUNK_DEPTH + block_z)

/-- The `Chunk` class of `chunk.py`.  The numpy arrays `block_data`
(fields `type`, `metadata`), `sky_light`, `block_light` and `height_map`
become total functions from the linear index. -/
structure Chunk where
  position : ChunkPosition
  blockTypeArr : Int → Nat
  blockMetaArr : Int → Nat
  skyLightArr : Int → Nat
  blockLightArr : Int → Nat
  heightMapArr : Int → Int
  is_loaded : Bool
  is_modified : Bool
  is_generating : Bool
  is_dirty : Bool
  mesh_valid : Bool

/-- `Chunk.__init__` with `generate=False`: zero-filled block data
(type value 0, which is *not* the value of any member), sky light 15,
block light 0, and `height_map` filled with `CHUNK_HEIGHT` (= 256). -/
def Chunk.new (position : ChunkPosition) : Chunk where
  position := position
  blockTypeArr := fun _ => 0
  blockMetaArr := fun _ => 0
  skyLightArr := fun _ => 15
  blockLightArr := fun _ => 0
  heightMapArr := fun _ => CHUNK_HEIGHT
  is_loaded := false
  is_modified := false
  is_generating := false
  is_dirty := true
  mesh_valid := false

/-- `Chunk._get_index`. -/
def Chunk.getIndex (x y z : Int) : Int :=
  (y * CHUNK_DEPTH + z) * CHUNK_WIDTH + x

/-- The bounds test `0 <= x < CHUNK_WIDTH and 0 <= y < CHUNK_HEIGHT and
0 <= z < CHUNK_DEPTH` used by `get_block` / `set_block`. -/
def Chunk.inBounds (x y z : Int) : Prop :=
  0 ≤ x ∧ x < CHUNK_WIDTH ∧ 0 ≤ y ∧ y < CHUNK_HEIGHT ∧ 0 ≤ z ∧ z < CHUNK_DEPTH

instance (x y z : Int) : Decidable (Chunk.inBounds x y z) := by
  unfold Chunk.inBounds; infer_instance

/-- Embedding of `Chunk.get_block`: out of range gives `none`; in range the
stored type value is passed to the `BlockType` constructor (ValueError when
it is not a member value, e.g. the fill value 0); `AIR` gives `none`;
otherwise a `Block` snapshot is built from the four arrays. -/
def Chunk.get_block (c : Chunk) (x y z : Int) : Except String (Option Block) :=
  if Chunk.inBounds x y z then
    let index := Chunk.getIndex x y z
    match BlockType.fromValue (c.blockTypeArr index) with
    | none => .error "ValueError: not a valid BlockType"
    | some bt =>
      if bt = .AIR then .ok none
      else .ok (some { block_type := bt, metadata := c.blockMetaArr index,
                       light_level := c.blockLightArr index,
                       sky_light := c.skyLightArr index })
  else .ok none

/-- Pointwise store into one of the function-valued arrays. -/
def arrSet (a : Int → Nat) (i : Int) (v : Nat) : Int → Nat :=
  Function.update a i v

/-- Pointwise store into the `Int`-valued `height_map` array. -/
def arrSetI (a : Int → Int) (i : Int) (v : Int) : Int → Int :=
  Function.update a i v

/-- Embedding of `Chunk._recalculate_height`: scan `y` from 255 down to 0
and return the first `y` whose *raw stored value* differs from
`BlockType.AIR.value` (= 1); `-1` when the whole column matches AIR.
`go n` inspects `y = n - 1` next. -/
def Chunk.recalcHeightFind (c : Chunk) (x z : Int) : Nat → Int
  | 0 => -1
  | n + 1 =>
    if c.blockTypeArr (Chunk.getIndex x (n : Int) z) ≠ BlockType.AIR.value
    then (n : Int)
    else Chunk.recalcHeightFind c x z n

/-- Embedding of `Chunk.set_block`: silently returns the chunk unchanged out
of range; otherwise writes type (mod 2^16), metadata and the two light
bytes (mod 2^8), sets the lifecycle flags, and updates the height map:
a non-air write *lowers* the cached value when `y` is below it, an air
write rescans the column. -/
def Chunk.set_block (c : Chunk) (x y z : Int) (block : Block) : Chunk :=
  if Chunk.inBounds x y z then
    let index := Chunk.getIndex x y z
    let c' : Chunk :=
      { c with
        blockTypeArr := arrSet c.blockTypeArr index (block.block_type.value % 65536)
        blockMetaArr := arrSet c.blockMetaArr index (block.metadata % 256)
        blockLightArr := arrSet c.blockLightArr index (block.light_level % 256)
        skyLightArr := arrSet c.skyLightArr index (block.sky_light % 256)
        is_modified := true
        is_dirty := true
        mesh_valid := false }
    if block.block_type ≠ .AIR then
      if y < c'.heightMapArr (z * CHUNK_WIDTH + x) then
        { c' with heightMapArr := arrSetI c'.heightMapArr (z * CHUNK_WIDTH + x) y }
      else c'
    else
      { c' with heightMapArr :=
          arrSetI c'.heightMapArr (z * CHUNK_WIDTH + x) (c'.recalcHeightFind x z 256) }
  else c

/-- `List.foldlM` for the `Except String` layer, written out so that proofs
can follow the fold one constructor at a time. -/
def foldEx {σ α : Type} (f : σ → α → Except String σ) :
    σ → List α → Except String σ
  | s, [] => .ok s
  | s, a :: l =>
    match f s a with
    | .error e => .error e
    | .ok s' => foldEx f s' l

/-- Embedding of `Chunk.get_height_at`. -/
def Chunk.getHeightAt (c : Chunk) (x z : Int) : Int :=
  if 0 ≤ x ∧ x < CHUNK_WIDTH ∧ 0 ≤ z ∧ z < CHUNK_DEPTH then
    c.heightMapArr (z * CHUNK_WIDTH + x)
  else -1

deriving instance DecidableEq for Except

/-- Embedding of `Chunk._get_light_level`: the simplified source returns the
sky light stored at the block position itself, whatever the face. -/
def Chunk.getLightLevel (c : Chunk) (x y z : Int) (_face : Face) : Nat :=
  c.skyLightArr (Chunk.getIndex x y z)

/-- One neighbor check of `Chunk._get_visible_faces`: the face is appended
when the neighbor cell reads as `None`, or when the neighbor is not opaque
while the block itself is (Python short-circuit evaluation of the `and`);
`block` is the block whose faces are being collected. -/
def Chunk.visibleFaceStep (c : Chunk) (block : Block) (x y z : Int)
    (visible : List (Face × Nat)) (entry : Face × (Int × Int × Int)) :
    Except String (List (Face × Nat)) :=
  match c.get_block entry.2.1 entry.2.2.1 entry.2.2.2 with
  | .error e => .error e
  | .ok none => .ok (visible ++ [(entry.1, c.getLightLevel x y z entry.1)])
  | .ok (some neighbor) =>
    match Block.opaqueB neighbor with
    | .error e => .error e
    | .ok nOpaque =>
      if ¬ nOpaque then
        match Block.opaqueB block with
        | .error e => .error e
        | .ok bOpaque =>
          if bOpaque then
            .ok (visible ++ [(entry.1, c.getLightLevel x y z entry.1)])
          else .ok visible
      else .ok visible

/-- Embedding of `Chunk._get_visible_faces`: the `neighbors` dict in its
insertion order, folded through `visibleFaceStep`. -/
def Chunk.getVisibleFaces (c : Chunk) (x y z : Int) :
    Except String (List (Face × Nat)) :=
  match c.get_block x y z with
  | .error e => .error e
  | .ok none => .ok []
  | .ok (some block) =>
    foldEx (c.visibleFaceStep block x y z) []
      [(.top, (x, y + 1, z)), (.bottom, (x, y - 1, z)), (.front, (x, y, z + 1)),
       (.back, (x, y, z - 1)), (.right, (x + 1, y, z)), (.left, (x - 1, y, z))]

/-- The `verts` tables of `Chunk._get_face_vertices`, as corner triples in
vertex order. -/
def faceCorners : Face → List (ℚ × ℚ × ℚ)
  | .top => [(0, 1, 0), (1, 1, 0), (1, 1, 1), (0, 1, 0), (1, 1, 1), (0, 1, 1)]
  | .bottom => [(0, 0, 0), (1, 0, 1), (1, 0, 0), (0, 0, 0), (0, 0, 1), (1, 0, 1)]
  | .front => [(0, 0, 1), (1, 0, 1), (1, 1, 1), (0, 0, 1), (1, 1, 1), (0, 1, 1)]
  | .back => [(1, 0, 0), (0, 0, 0), (0, 1, 0), (1, 0, 0), (0, 1, 0), (1, 1, 0)]
  | .right => [(1, 0, 1), (1, 0, 0), (1, 1, 0), (1, 0, 1), (1, 1, 0), (1, 1, 1)]
  | .left => [(0, 0, 0), (0, 0, 1), (0, 1, 1), (0, 0, 0), (0, 1, 1), (0, 1, 0)]

/-- The `uv` tables of `Chunk._get_face_vertices`, as pairs in vertex
order (`bottom` has its own table, the five other faces share one). -/
def faceUVs : Face → List (ℚ × ℚ)
  | .bottom => [(0, 0), (1, 1), (1, 0), (0, 0), (0, 1), (1, 1)]
  | _ => [(0, 0), (1, 0), (1, 1), (0, 0), (1, 1), (0, 1)]

/-- Embedding of `Chunk._get_face_vertices`: 6 vertices of 7 floats each —
position, uv scaled by 1/16 (= 0.0625), texture id, light. -/
def Chunk.getFaceVertices (x y z : Int) (f : Face) (block : Block)
    (light : Nat) : List ℚ :=
  ((faceCorners f).zip (faceUVs f)).flatMap (fun cu =>
    [(x : ℚ) + cu.1.1, (y : ℚ) + cu.1.2.1, (z : ℚ) + cu.1.2.2,
     cu.2.1 * (1 / 16), cu.2.2 * (1 / 16),
     (block.getTextureId f : ℚ), (light : ℚ)])

/-- One visible position of `Chunk.build_mesh`: convert to chunk-relative
coordinates, skip out-of-range or null cells, and append the 42 floats of
each visible face. -/
def Chunk.meshStep (c : Chunk) (vertices : List ℚ) (pos : Int × Int × Int) :
    Except String (List ℚ) :=
  let chunk_x := pos.1 - c.position.x * CHUNK_WIDTH
  let chunk_y := pos.2.1
  let chunk_z := pos.2.2 - c.position.z * CHUNK_DEPTH
  if Chunk.inBounds chunk_x chunk_y chunk_z then
    match c.get_block chunk_x chunk_y chunk_z with
    | .error e => .error e
    | .ok none => .ok vertices
    | .ok (some block) =>
      match c.getVisibleFaces chunk_x chunk_y chunk_z with
      | .error e => .error e
      | .ok faces =>
        .ok (vertices ++ faces.flatMap (fun fl =>
          Chunk.getFaceVertices chunk_x chunk_y chunk_z fl.1 block fl.2))
  else .ok vertices

/-- Embedding of `Chunk.build_mesh`: the set of visible world positions is
traversed (as a list) through `meshStep`. -/
def Chunk.buildMesh (c : Chunk) (visibleBlocks : List (Int × Int × Int)) :
    Except String (List ℚ) :=
  foldEx c.meshStep [] visibleBlocks

/-- The number of `top`-face quads `build_mesh` emits over a list of visible
positions: it follows `build_mesh` exactly, but counts the entries of each
`_get_visible_faces` result whose face key is `top` (each such entry yields
exactly one 6-vertex quad through `_get_face_vertices`). -/
def Chunk.quadStep (c : Chunk) (count : Nat) (pos : Int × Int × Int) :
    Except String Nat :=
  let chunk_x := pos.1 - c.position.x * CHUNK_WIDTH
  let chunk_y := pos.2.1
  let chunk_z := pos.2.2 - c.position.z * CHUNK_DEPTH
  if Chunk.inBounds chunk_x chunk_y chunk_z then
    match c.get_block chunk_x chunk_y chunk_z with
    | .error e => .error e
    | .ok none => .ok count
    | .ok (some _) =>
      match c.getVisibleFaces chunk_x chunk_y chunk_z with
      | .error e => .error e
      | .ok faces =>
        .ok (count + (faces.filter (fun fl => fl.1 = Face.top)).length)
  else .ok count

def Chunk.topQuadCount (c : Chunk) (visibleBlocks : List (Int × Int × Int)) :
    Except String Nat :=
  foldEx c.quadStep 0 visibleBlocks

/-- A chunk state every cell of which stores the value of `AIR` (a chunk
containing no non-air blocks, with every cell holding a valid member
value). -/
def airChunk (position : ChunkPosition) : Chunk :=
  { Chunk.new position with blockTypeArr := fun _ => BlockType.AIR.value }

/-- A chunk whose only non-air content is a single solid `STONE` slab of
size `w × h × 1`: cells with `x0 ≤ x < x0 + w`, `z0 ≤ z < z0 + h`,
`y = y0` hold `STONE`, every other cell holds `AIR`.  The cell coordinates
are recovered from the linear index `i = (y*16 + z)*16 + x`. -/
def slabChunk (position : ChunkPosition) (x0 z0 y0 : Int) (w h : Nat) : Chunk :=
  { Chunk.new position with
    blockTypeArr := fun i =>
      if 0 ≤ i ∧ i / 16 / 16 = y0 ∧
         x0 ≤ i % 16 ∧ i % 16 < x0 + w ∧
         z0 ≤ i / 16 % 16 ∧ i / 16 % 16 < z0 + h
      then BlockType.STONE.value else BlockType.AIR.value }

/-- The canonical enumeration of the block positions of the slab of
`slabChunk` (world positions, for the chunk at grid position (0, 0)). -/
def slabPositions (x0 z0 y0 : Int) (w h : Nat) : List (Int × Int × Int) :=
  (List.range w).flatMap (fun i =>
    (List.range h).map (fun (j : Nat) =>
      (x0 + (i : Int), y0, z0 + (j : Int))))

/-- Names available at module level in `chunk.py`: its imports (`numpy as
np`, the `typing` and `dataclasses` names, `ThreadPoolExecutor`, `struct`,
`Block`, `BlockType`, `NoiseGenerator`) and its own top-level definitions.
`os` is *not* among them: `chunk.py` has no module-level `import os` (the
`import os` inside `Chunk.save` is local to that method). -/
def chunkModuleNames : List String :=
  ["np", "Dict", "List", "Tuple", "Optional", "Set", "dataclass", "field",
   "ThreadPoolExecutor", "struct", "Block", "BlockType", "NoiseGenerator",
   "CHUNK_WIDTH", "CHUNK_HEIGHT", "CHUNK_DEPTH", "CHUNK_VOLUME",
   "ChunkPosition", "BlockData", "Chunk"]

/-- Names available at module level in `world.py`: `os`, `threading`,
`time`, the `typing` names, `ThreadPoolExecutor`, `np`, and the imported
core classes.  `random` is *not* among them: `world.py` never imports
`random`. -/
def worldModuleNames : List String :=
  ["os", "threading", "time", "Dict", "List", "Tuple", "Set", "Optional",
   "Callable", "dataclass", "field", "ThreadPoolExecutor", "np", "Chunk",
   "ChunkPosition", "Block", "BlockType", "NoiseGenerator", "LightEngine",
   "World"]

/-- Python global-name resolution against a module environment. -/
def pyName (env : List String) (n : String) : Except String Unit :=
  if env.contains n then .ok () else .error ("NameError: " ++ n)

/-- Embedding of `Chunk.load` from `chunk.py`.  Its first statement is
`chunk_file = os.path.join(path, ...)`, which resolves the module-level
name `os`; since `chunk.py` never imports `os`, every call raises
NameError before the file is even opened, so the binary reader that
follows is unreachable (hence not modelled further). -/
def Chunk.load (_position : ChunkPosition) (_path : String) :
    Except String Chunk :=
  match pyName chunkModuleNames "os" with
  | .error e => .error e
  | .ok _ => .error "unreachable: the reader below the os lookup"

/-- Embedding of `World.get_spawn_position` from `world.py`.  Its first
statement `random.seed(self.seed)` resolves the module-level name
`random`, which `world.py` never imports, so every call raises NameError.
`randint` abstracts the stateful `random.randint` stream (call index to
value) and `getHeight` the seeded `NoiseGenerator.get_height`; both are
unreachable. -/
def World.getSpawnPosition (randint : Nat → Int) (getHeight : Int → Int → Int)
    (_seed : Int) : Except String (Int × Int) :=
  match pyName worldModuleNames "random" with
  | .error e => .error e
  | .ok _ =>
    let spawn_x := randint 0
    let spawn_z := randint 1
    let _spawn_y := getHeight spawn_x spawn_z
    .ok (spawn_x, spawn_z)

/-- Embedding of `Chunk._get_block_type_at`.  `fastNoise x y z t` abstracts
the IEEE-float comparison `fast_noise(x, y, z) > t` of the seed-independent,
purely hash-based `SimplexNoise.fast_noise` (a fixed, deterministic
predicate); the two thresholds are the ones in the source.  The surface
branch for elevations above 180 looks up `BlockType.SNOW`, which is not a
member of the enumeration. -/
def Chunk.getBlockTypeAt (fastNoise : Int → Int → Int → ℚ → Bool)
    (x y z surface_height : Int) : Except String BlockType :=
  if y < 5 then .ok .BEDROCK
  else if y = surface_height then
    if surface_height > 180 then BlockType.attr "SNOW"
    else if surface_height > 140 then .ok .STONE
    else if surface_height > 100 then .ok .SAND
    else .ok .GRASS
  else if y < surface_height - 4 then
    if fastNoise x y z (3 / 10) then .ok .STONE
    else if fastNoise (x * 2) (y * 2) (z * 2) (3 / 5) then .ok .DIRT
    else .ok .STONE
  else .ok .DIRT

/-- One cell of `Chunk.generate`: compute the block type for `(x, y, z)`
under the column surface height and `set_block` it when it is not air. -/
def Chunk.genCell (fastNoise : Int → Int → Int → ℚ → Bool) (x z height : Int)
    (c : Chunk) (y : Int) : Except String Chunk :=
  match Chunk.getBlockTypeAt fastNoise x y z height with
  | .error e => .error e
  | .ok bt =>
    if bt ≠ .AIR then .ok (c.set_block x y z { block_type := bt }) else .ok c

/-- The `(x, z)` column traversal order of `Chunk.generate` (and of the
light-engine whole-chunk passes): `x` outer, `z` inner. -/
def columnList : List (Int × Int) :=
  (List.range 16).flatMap (fun x => (List.range 16).map (fun z => ((x : Int), (z : Int))))

/-- One column of `Chunk.generate`: the world coordinates are derived from
the chunk position, the surface height is queried once (from the
seed-12345 `NoiseGenerator.get_height`, abstracted by `getHeight`) and
clamped, then every `y` of the column is generated bottom-up. -/
def Chunk.genColumn (getHeight : Int → Int → Int)
    (fastNoise : Int → Int → Int → ℚ → Bool) (c : Chunk) (xz : Int × Int) :
    Except String Chunk :=
  let wpos := c.position.toWorld xz.1 xz.2
  let height := max 0 (min (CHUNK_HEIGHT - 1) (getHeight wpos.1 wpos.2))
  foldEx (fun c' y => Chunk.genCell fastNoise xz.1 xz.2 height c' y) c
    ((List.range 256).map (fun y => (y : Int)))

/-- Embedding of `Chunk.generate`: set `is_generating`, run every column,
then mark the chunk loaded and dirty. -/
def Chunk.generateTerrain (getHeight : Int → Int → Int)
    (fastNoise : Int → Int → Int → ℚ → Bool) (c : Chunk) : Except String Chunk :=
  match foldEx (Chunk.genColumn getHeight fastNoise)
      { c with is_generating := true } columnList with
  | .error e => .error e
  | .ok c' => .ok { c' with is_generating := false, is_loaded := true, is_dirty := true }

/-- `Chunk.__init__` with `generate=True`: fresh arrays, then `generate`. -/
def Chunk.newGenerated (getHeight : Int → Int → Int)
    (fastNoise : Int → Int → Int → ℚ → Bool) (position : ChunkPosition) :
    Except String Chunk :=
  Chunk.generateTerrain getHeight fastNoise (Chunk.new position)

/-- The neighbor offsets of `LightEngine._get_neighbors`, in source order:
top, bottom, right, left, front, back. -/
def neighborOffsets : List (Int × Int × Int) :=
  [(0, 1, 0), (0, -1, 0), (1, 0, 0), (-1, 0, 0), (0, 0, 1), (0, 0, -1)]

/-- Sequencing an exception-raising computation into a fuelled one. -/
def bindEO {α β : Type} (r : Except String α)
    (f : α → Option (Except String β)) : Option (Except String β) :=
  match r with
  | .error e => some (.error e)
  | .ok a => f a

/-- Sequencing for fuelled, exception-raising computations: `none` means
the fuel ran out, `some (.error e)` a propagating Python exception. -/
def bindO {α β : Type} (r : Option (Except String α))
    (f : α → Option (Except String β)) : Option (Except String β) :=
  match r with
  | none => none
  | some (.error e) => some (.error e)
  | some (.ok a) => f a

/-- `List.foldlM` for the fuelled exception layer, written out for proofs. -/
def foldE {σ α : Type} (f : σ → α → Option (Except String σ)) :
    σ → List α → Option (Except String σ)
  | s, [] => some (.ok s)
  | s, a :: l =>
    match f s a with
    | none => none
    | some (.error e) => some (.error e)
    | some (.ok s') => foldE f s' l

/-- The loop of `LightEngine._set_block_light`: a BFS over a queue of
`(x, y, z, level)` entries with a visited set.  A popped entry is skipped
when already visited; otherwise it is marked visited and skipped when out
of bounds, or when the cell holds a block that is not transparent (the
`is_transparent` call raising AttributeError propagates), or when the
stored level already meets the candidate.  Otherwise the level is stored
and, when it exceeds 1, the six neighbors are enqueued with `level - 1`.
The fuel argument bounds the number of loop iterations; `none` reports
exhaustion. -/
def LightEngine.setBlockLightAux :
    Nat → Chunk → List (Int × Int × Int × Nat) → Finset (Int × Int × Int) →
    Option (Except String Chunk)
  | 0, _, _, _ => none
  | fuel + 1, c, queue, visited =>
    match queue with
    | [] => some (.ok c)
    | e :: rest =>
      let cx := e.1
      let cy := e.2.1
      let cz := e.2.2.1
      let level := e.2.2.2
      if (cx, cy, cz) ∈ visited then
        LightEngine.setBlockLightAux fuel c rest visited
      else
        let visited' := insert (cx, cy, cz) visited
        if ¬ Chunk.inBounds cx cy cz then
          LightEngine.setBlockLightAux fuel c rest visited'
        else
          let check : Except String Bool :=
            match c.get_block cx cy cz with
            | .error err => .error err
            | .ok (some b) => Block.transparentB b
            | .ok none => .ok true
          match check with
          | .error err => some (.error err)
          | .ok false => LightEngine.setBlockLightAux fuel c rest visited'
          | .ok true =>
            let index := Chunk.getIndex cx cy cz
            let current := c.blockLightArr index
            if level ≤ current then
              LightEngine.setBlockLightAux fuel c rest visited'
            else
              let c' := { c with blockLightArr := arrSet c.blockLightArr index level }
              if 1 < level then
                LightEngine.setBlockLightAux fuel c'
                  (rest ++ neighborOffsets.map (fun d =>
                    (cx + d.1, cy + d.2.1, cz + d.2.2, level - 1)))
                  visited'
              else
                LightEngine.setBlockLightAux fuel c' rest visited'

/-- Embedding of `LightEngine._set_block_light`: early return on a
non-positive level, else run the BFS from a single seed entry. -/
def LightEngine.setBlockLight (fuel : Nat) (c : Chunk) (x y z : Int)
    (light : Nat) : Option (Except String Chunk) :=
  if light = 0 then some (.ok c)
  else LightEngine.setBlockLightAux fuel c [(x, y, z, light)] ∅

/-- The six recursive spread calls of `_spread_light` after the cell is
raised, in source order (`z+1`, `z-1`, `x+1`, `x-1`, then `y+1` / `y-1`
under their bounds guards), threading the mutated chunk; `recur` is the
recursive call at the remaining depth budget. -/
def LightEngine.spreadSix
    (recur : Chunk → Int → Int → Int → Option (Except String Chunk))
    (c1 : Chunk) (x y z : Int) : Option (Except String Chunk) :=
  bindO (recur c1 x y (z + 1)) (fun c2 =>
  bindO (recur c2 x y (z - 1)) (fun c3 =>
  bindO (recur c3 (x + 1) y z) (fun c4 =>
  bindO (recur c4 (x - 1) y z) (fun c5 =>
  bindO (if y < CHUNK_HEIGHT - 1 then recur c5 x (y + 1) z
         else some (.ok c5)) (fun c6 =>
  if 0 < y then recur c6 x (y - 1) z
  else some (.ok c6))))))

/-- Embedding of `LightEngine._spread_light`.  Out-of-bounds and
non-transparent cells return immediately (a block that is not air makes
the `is_transparent` call raise).  Otherwise the maximum neighbor block
light is taken, decremented, and when that improves the cell the value is
stored and the six neighbors are spread recursively through `spreadSix`.
The fuel bounds the recursion depth. -/
def LightEngine.spreadLight :
    Nat → Chunk → Int → Int → Int → Option (Except String Chunk)
  | 0, _, _, _, _ => none
  | fuel + 1, c, x, y, z =>
    if ¬ Chunk.inBounds x y z then some (.ok c)
    else
      let check : Except String Bool :=
        match c.get_block x y z with
        | .error err => .error err
        | .ok (some b) => Block.transparentB b
        | .ok none => .ok true
      match check with
      | .error err => some (.error err)
      | .ok false => some (.ok c)
      | .ok true =>
        let index := Chunk.getIndex x y z
        let maxLight := neighborOffsets.foldl (fun m d =>
          let nx := x + d.1
          let ny := y + d.2.1
          let nz := z + d.2.2
          if Chunk.inBounds nx ny nz then
            max m (c.blockLightArr (Chunk.getIndex nx ny nz))
          else m) 0
        let newLight := maxLight - 1
        if c.blockLightArr index < newLight then
          LightEngine.spreadSix (LightEngine.spreadLight fuel)
            { c with blockLightArr := arrSet c.blockLightArr index newLight } x y z
        else some (.ok c)

/-- Embedding of `LightEngine._propagate_light`: spread into each in-bounds
neighbor of the removed cell, in source order. -/
def LightEngine.propagateLight (fuel : Nat) (c : Chunk) (x y z : Int) :
    Option (Except String Chunk) :=
  foldE (fun c' d =>
    let nx := x + d.1
    let ny := y + d.2.1
    let nz := z + d.2.2
    if Chunk.inBounds nx ny nz then LightEngine.spreadLight fuel c' nx ny nz
    else some (.ok c')) c neighborOffsets

/-- Embedding of `LightEngine._update_after_block_change` (placement of a
block): for a non-transparent cell that was lit and emits nothing, zero it
and re-spread; the short-circuit order of the Python conditionals is
preserved. -/
def LightEngine.updateAfterBlockChange (fuel : Nat) (c : Chunk) (x y z : Int) :
    Option (Except String Chunk) :=
  match c.get_block x y z with
  | .error e => some (.error e)
  | .ok none => some (.ok c)
  | .ok (some block) =>
    match Block.transparentB block with
    | .error e => some (.error e)
    | .ok t =>
      if ¬ t then
        let index := Chunk.getIndex x y z
        let old := c.blockLightArr index
        if 0 < old then
          match Block.lightEmission block with
          | .error e => some (.error e)
          | .ok em =>
            if em = 0 then
              let c1 := { c with blockLightArr := arrSet c.blockLightArr index 0 }
              LightEngine.spreadLight fuel c1 x y z
            else some (.ok c)
        else some (.ok c)
      else some (.ok c)

/-- Embedding of `LightEngine.update_block`. -/
def LightEngine.updateBlock (fuel : Nat) (c : Chunk) (x y z : Int) :
    Option (Except String Chunk) :=
  match c.get_block x y z with
  | .error e => some (.error e)
  | .ok none => LightEngine.propagateLight fuel c x y z
  | .ok (some _) => LightEngine.updateAfterBlockChange fuel c x y z

/-- One column of `LightEngine._recalculate_sky_light`, top-down: `go n`
processes `y = n - 1`.  An opaque block resets the running light to 0, a
transparent one attenuates by 1, any other block by 2 (Python
`max(0, ...)` is the truncated `Nat` subtraction); the running value is
stored at every cell. -/
def LightEngine.recalcSkyColumn (x z : Int) :
    Nat → Nat → Chunk → Except String Chunk
  | 0, _, c => .ok c
  | n + 1, light, c =>
    let y : Int := (n : Int)
    let index := Chunk.getIndex x y z
    match c.get_block x y z with
    | .error e => .error e
    | .ok bo =>
      let newLight : Except String Nat :=
        match bo with
        | none => .ok light
        | some block =>
          match Block.opaqueB block with
          | .error e => .error e
          | .ok op =>
            if op then .ok 0
            else
              match Block.transparentB block with
              | .error e => .error e
              | .ok tr => if tr then .ok (light - 1) else .ok (light - 2)
      match newLight with
      | .error e => .error e
      | .ok light' =>
        LightEngine.recalcSkyColumn x z n light'
          { c with skyLightArr := arrSet c.skyLightArr index light' }

/-- Embedding of `LightEngine._recalculate_sky_light`: every column,
starting at light 15 above the top cell. -/
def LightEngine.recalcSkyLight (c : Chunk) : Except String Chunk :=
  foldEx (fun c' xz => LightEngine.recalcSkyColumn xz.1 xz.2 256 15 c') c columnList

/-- One cell of `LightEngine._recalculate_block_light`: a non-air cell has
its emission queried (`get_light_emission` raising AttributeError
propagates) and positive emitters seed a BFS. -/
def LightEngine.recalcBlockCell (fuel : Nat) (c : Chunk) (x y z : Int) :
    Option (Except String Chunk) :=
  match c.get_block x y z with
  | .error e => some (.error e)
  | .ok none => some (.ok c)
  | .ok (some block) =>
    match Block.lightEmission block with
    | .error e => some (.error e)
    | .ok emission =>
      if 0 < emission then LightEngine.setBlockLight fuel c x y z emission
      else some (.ok c)

/-- The `(x, y, z)` traversal order of `_recalculate_block_light`:
`x` outer, then `y`, then `z`. -/
def cellList : List (Int × Int × Int) :=
  (List.range 16).flatMap (fun x =>
    (List.range 256).flatMap (fun y =>
      (List.range 16).map (fun z => ((x : Int), (y : Int), (z : Int)))))

/-- Embedding of `LightEngine._recalculate_block_light`: zero the array
(`fill(0)`), then visit every cell. -/
def LightEngine.recalcBlockLight (fuel : Nat) (c : Chunk) :
    Option (Except String Chunk) :=
  foldE (fun c' p => LightEngine.recalcBlockCell fuel c' p.1 p.2.1 p.2.2)
    { c with blockLightArr := fun _ => 0 } cellList

/-- Embedding of `LightEngine.update_chunk`: sky light first, then block
light. -/
def LightEngine.updateChunk (fuel : Nat) (c : Chunk) :
    Option (Except String Chunk) :=
  bindEO (LightEngine.recalcSkyLight c) (fun c1 =>
    LightEngine.recalcBlockLight fuel c1)

/-- Embedding of `LightEngine.get_combined_light`. -/
def LightEngine.getCombinedLight (c : Chunk) (x y z : Int) : Nat :=
  if Chunk.inBounds x y z then
    max (c.skyLightArr (Chunk.getIndex x y z)) (c.blockLightArr (Chunk.getIndex x y z))
  else 0

/-- The `World` class of `world.py` (the time-of-day, weather and callback
fields play no role in any claim and are omitted; the chunk map becomes a
function from positions). -/
structure World where
  seed : Int
  save_path : String
  chunks : ChunkPosition → Option Chunk

/-- Insert (publish) a chunk into the world map, as the assignment
`self.chunks[position] = chunk` does. -/
def World.publish (w : World) (position : ChunkPosition) (c : Chunk) : World :=
  { w with chunks := fun p => if p = position then some c else w.chunks p }

/-- Embedding of `World._load_chunk`: `disk` tells whether the chunk file
exists; when it does, `Chunk.load` is attempted and *any* exception is
caught (`except Exception`), printed, and turned into `None`. -/
def World.loadChunkFromDisk (disk : ChunkPosition → Bool) (w : World)
    (position : ChunkPosition) : Option Chunk :=
  if disk position then
    match Chunk.load position w.save_path with
    | .ok c => some c
    | .error _ => none
  else none

/-- Embedding of `World._generate_chunk` (the `_generation_lock` is
irrelevant under the single-threaded semantics modelled here): return an
already-present chunk; otherwise try the disk, then (when `gen`) terrain
generation; a produced chunk is published and `update_chunk` runs on it,
its exceptions propagating to the caller. -/
def World.generateChunk (getHeight : Int → Int → Int)
    (fastNoise : Int → Int → Int → ℚ → Bool) (disk : ChunkPosition → Bool)
    (fuel : Nat) (w : World) (position : ChunkPosition) (gen : Bool) :
    Option (Except String (World × Option Chunk)) :=
  match w.chunks position with
  | some c => some (.ok (w, some c))
  | none =>
    let fromDisk := World.loadChunkFromDisk disk w position
    let produced : Except String (Option Chunk) :=
      match fromDisk with
      | some c => .ok (some c)
      | none =>
        if gen then
          match Chunk.newGenerated getHeight fastNoise position with
          | .error e => .error e
          | .ok c => .ok (some c)
        else .ok none
    match produced with
    | .error e => some (.error e)
    | .ok none => some (.ok (w, none))
    | .ok (some c) =>
      let w1 := w.publish position c
      bindO (LightEngine.updateChunk fuel c) (fun c2 =>
        some (.ok (w1.publish position c2, some c2)))

/-- Embedding of `World.get_block`: resolve the chunk through
`get_chunk_at`, generating on demand, then delegate to `Chunk.get_block`
with the chunk-relative coordinates. -/
def World.get_block (getHeight : Int → Int → Int)
    (fastNoise : Int → Int → Int → ℚ → Bool) (disk : ChunkPosition → Bool)
    (fuel : Nat) (w : World) (x y z : Int) :
    Option (Except String (World × Option Block)) :=
  let cp := ChunkPosition.fromWorld x z
  let local_x := x - cp.x * 16
  let local_z := z - cp.z * 16
  let resolved : Option (Except String (World × Option Chunk)) :=
    match w.chunks cp with
    | some c => some (.ok (w, some c))
    | none => World.generateChunk getHeight fastNoise disk fuel w cp true
  bindO resolved (fun wc =>
    match wc.2 with
    | none => some (.ok (wc.1, none))
    | some chunk =>
      match chunk.get_block local_x y local_z with
      | .error e => some (.error e)
      | .ok b => some (.ok (wc.1, b)))

/-- Embedding of `World.set_block`: resolve (or generate) the target chunk,
returning `False` when none is produced; write through `Chunk.set_block`;
run the light update on the affected cell; eagerly generate the adjacent
chunk when the edit lies on a chunk edge; return `True`. -/
def World.set_block (getHeight : Int → Int → Int)
    (fastNoise : Int → Int → Int → ℚ → Bool) (disk : ChunkPosition → Bool)
    (fuel : Nat) (w : World) (x y z : Int) (block : Block) :
    Option (Except String (World × Bool)) :=
  let cp := ChunkPosition.fromWorld x z
  let local_x := x - cp.x * 16
  let local_z := z - cp.z * 16
  let resolved : Option (Except String (World × Option Chunk)) :=
    match w.chunks cp with
    | some c => some (.ok (w, some c))
    | none => World.generateChunk getHeight fastNoise disk fuel w cp true
  bindO resolved (fun wc =>
    match wc.2 with
    | none => some (.ok (wc.1, false))
    | some chunk =>
      let chunk1 := chunk.set_block local_x y local_z block
      bindO (LightEngine.updateBlock fuel chunk1 local_x y local_z) (fun chunk2 =>
        let w2 := (wc.1).publish cp chunk2
        let afterX : Option (Except String World) :=
          if local_x = 0 then
            bindO (World.generateChunk getHeight fastNoise disk fuel w2
              ⟨cp.x - 1, cp.z⟩ true) (fun r => some (.ok r.1))
          else if local_x = 15 then
            bindO (World.generateChunk getHeight fastNoise disk fuel w2
              ⟨cp.x + 1, cp.z⟩ true) (fun r => some (.ok r.1))
          else some (.ok w2)
        bindO afterX (fun w3 =>
          let afterZ : Option (Except String World) :=
            if local_z = 0 then
              bindO (World.generateChunk getHeight fastNoise disk fuel w3
                ⟨cp.x, cp.z - 1⟩ true) (fun r => some (.ok r.1))
            else if local_z = 15 then
              bindO (World.generateChunk getHeight fastNoise disk fuel w3
                ⟨cp.x, cp.z + 1⟩ true) (fun r => some (.ok r.1))
            else some (.ok w3)
          bindO afterZ (fun w4 => some (.ok (w4, true))))))

/-- The 3-by-3 offset grid `World._generate_initial_chunks` walks around
the spawn chunk. -/
def spawnOffsets : List (Int × Int) :=
  [(-1, -1), (-1, 0), (-1, 1), (0, -1), (0, 0), (0, 1), (1, -1), (1, 0), (1, 1)]

/-- Embedding of `World.__init__` with an explicit integer seed: build the
empty world, then `_init_world` runs `_generate_initial_chunks`, whose
first step `get_spawn_position` resolves the missing module name
`random`. -/
def World.init (getHeight : Int → Int → Int)
    (fastNoise : Int → Int → Int → ℚ → Bool) (disk : ChunkPosition → Bool)
    (randint : Nat → Int) (fuel : Nat) (seed : Int) (save_path : String) :
    Option (Except String World) :=
  let w : World := { seed := seed, save_path := save_path, chunks := fun _ => none }
  match World.getSpawnPosition randint getHeight seed with
  | .error e => some (.error e)
  | .ok sp =>
    let spawn_chunk := ChunkPosition.fromWorld sp.1 sp.2
    bindO (foldE (fun w' d =>
        bindO (World.generateChunk getHeight fastNoise disk fuel w'
          ⟨spawn_chunk.x + d.1, spawn_chunk.z + d.2⟩ true)
          (fun r => some (.ok r.1))) w spawnOffsets)
      (fun w1 => some (.ok w1))

/-- A fresh chunk after two non-air writes into column (0, 0): a `STONE` at
`y = 5` and then a `STONE` at `y = 9`. -/
def c2Chunk : Chunk :=
  ((Chunk.new ⟨0, 0⟩).set_block 0 5 0 { block_type := .STONE }).set_block 0 9 0
    { block_type := .STONE }

/-- A chunk every cell of which stores `BEDROCK` (as produced, e.g., for the
bottom layers by the terrain generator). -/
def bedrockChunk : Chunk :=
  { Chunk.new ⟨0, 0⟩ with blockTypeArr := fun _ => BlockType.BEDROCK.value }

/-- An all-air chunk with a single `STONE` stored at cell (0, 0, 0)
(linear index 0). -/
def stoneCellChunk : Chunk :=
  { airChunk ⟨0, 0⟩ with
    blockTypeArr := arrSet (fun _ => BlockType.AIR.value) 0 BlockType.STONE.value }

/-- A world with no loaded chunks. -/
def emptyWorld : World := { seed := 7, save_path := "world", chunks := fun _ => none }

/-- A world holding exactly one chunk, an all-air chunk at position (0, 0). -/
def oneChunkWorld : World :=
  { seed := 7, save_path := "world",
    chunks := fun p => if p = ⟨0, 0⟩ then some (airChunk ⟨0, 0⟩) else none }

/-- A height oracle that reports elevation 300 everywhere (clamped to 255
by `generate`, which puts every surface in the above-180 bracket). -/
def height300 : Int → Int → Int := fun _ _ => 300

/-- A fast-noise comparison oracle that reports `false` everywhere (the
noise value never exceeds a threshold). -/
def fnoise0 : Int → Int → Int → ℚ → Bool := fun _ _ _ _ => false

/-- The padded coordinate domain the `_set_block_light` BFS can ever visit:
every enqueued entry is a neighbor of an in-bounds cell. -/
def paddedDomain : Finset (Int × Int × Int) :=
  (Finset.Icc (-1 : Int) 16) ×ˢ (Finset.Icc (-1 : Int) 256) ×ˢ (Finset.Icc (-1 : Int) 16)

/-- The in-bounds linear indices, as integers. -/
def intRange65536 : Finset Int :=
  (Finset.range 65536).map ⟨Nat.cast, Nat.cast_injective⟩

/-- Termination potential for `_spread_light`: total headroom of the
(byte-valued) block-light array below 255. -/
def lightPotential (c : Chunk) : Nat :=
  intRange65536.sum (fun i => 255 - c.blockLightArr i)

/-! ## Theorems -/

/-- Claim C2: the claim says `height_map[x, z]` always equals the greatest
non-air `y` of the column (or -1 when empty).  The code violates this: a
fresh chunk caches 256 (not -1) for its all-air columns, and `set_block`
*lowers* the cache (`if y < height_map: height_map = y`), so after placing
stone at `y = 5` and then at `y = 9` the cache reads 5 although the
topmost non-air cell of the column sits at `y = 9`.  The code contradicts
its own `_recalculate_height`, which implements the topmost-or-minus-one
semantics the claim states. -/
theorem height_map_not_topmost_after_set_block :
    c2Chunk.heightMapArr 0 = 5 ∧
    c2Chunk.blockTypeArr (Chunk.getIndex 0 9 0) = BlockType.STONE.value ∧
    BlockType.STONE.value ≠ BlockType.AIR.value ∧
    (Chunk.new ⟨0, 0⟩).heightMapArr 0 = 256 ∧
    (Chunk.new ⟨0, 0⟩).recalcHeightFind 0 0 256 = 255 := by
  refine ⟨by decide, by decide, by decide, by decide, by decide⟩

/-- Claim C3: the claim says `is_opaque`, `is_transparent` and
`get_light_emission` return without raising for every member.  In the code
only `is_opaque` does: evaluating the `transparent_types` set literal
raises AttributeError at the nonexistent member `LEAVES`, and evaluating
the `light_emitters` dict literal raises at the nonexistent member `FIRE`,
on every call whatever the receiver. -/
theorem block_property_lookups_raise :
    Block.transparentB { block_type := .AIR } = .error "AttributeError: LEAVES" ∧
    Block.lightEmission { block_type := .AIR } = .error "AttributeError: FIRE" ∧
    ∀ b : Block, (Block.opaqueB b).isOk := by
  refine ⟨by decide, by decide, ?_⟩
  intro b
  have h : (opaqueTypeNames.mapM BlockType.attr).isOk := by decide
  unfold Block.opaqueB
  cases hm : opaqueTypeNames.mapM BlockType.attr with
  | error e => rw [hm] at h; simp [Except.isOk, Except.toBool] at h
  | ok l => simp [bind, Except.bind, hm, pure, Except.pure, Except.isOk, Except.toBool]

/-- Claim C6, counterexample: the claim says the liquids satisfy
`is_transparent`.  They cannot: `is_transparent` raises AttributeError (at
the nonexistent member `LEAVES`) instead of returning `True` on `WATER`,
which `is_opaque` correctly classifies as not opaque. -/
theorem liquid_transparency_counterexample :
    Block.transparentB { block_type := .WATER } = .error "AttributeError: LEAVES" ∧
    Block.opaqueB { block_type := .WATER } = .ok false := by
  refine ⟨by decide, by decide⟩

/-- Claim C6, amended: no type satisfies `is_transparent` (every call
raises at the nonexistent `LEAVES` member, so in particular the two
classifications never both hold, vacuously); `is_opaque` returns `False`
on both liquids, which appear in the transparent name set as written; and
the two name sets as written are *not* disjoint — they overlap exactly at
`MUSHROOM_BLOCK`. -/
theorem block_classification_amended :
    (∀ b : Block, Block.transparentB b = .error "AttributeError: LEAVES") ∧
    Block.opaqueB { block_type := .WATER } = .ok false ∧
    Block.opaqueB { block_type := .LAVA } = .ok false ∧
    "WATER" ∈ transparentTypeNames ∧ "LAVA" ∈ transparentTypeNames ∧
    "WATER" ∉ opaqueTypeNames ∧ "LAVA" ∉ opaqueTypeNames ∧
    opaqueTypeNames.filter (fun n => transparentTypeNames.contains n) =
      ["MUSHROOM_BLOCK"] := by
  refine ⟨?_, by decide, by decide, by decide, by decide, by decide, by decide, by decide⟩
  intro b
  have hm : List.mapM.loop BlockType.attr transparentTypeNames [] =
      (.error "AttributeError: LEAVES" : Except String (List BlockType)) := by decide
  unfold Block.transparentB
  simp only [List.mapM, bind, Except.bind, hm]

/-- Claim C4: the claim says a saved chunk can be loaded back unchanged.
`Chunk.load` cannot load anything: `chunk.py` never imports `os` at module
level (the `import os` in `save` is method-local), so the first statement
of `load` raises NameError on every call, including immediately after a
successful `save` of the same chunk to the same directory. -/
theorem chunk_load_raises_name_error :
    Chunk.load ⟨0, 0⟩ "world" = .error "NameError: os" := by rfl

/-- Claim C5: the claim says two `World`s with the same seed derive the
same spawn position and terrain.  No `World` is ever constructed:
`world.py` never imports `random`, so `get_spawn_position` — called from
`__init__` via `_generate_initial_chunks` — raises NameError on its first
statement `random.seed(self.seed)`, for every seed and in particular for
`World(seed=7)`. -/
theorem spawn_position_raises_name_error :
    (∀ (randint : Nat → Int) (getHeight : Int → Int → Int) (seed : Int),
      World.getSpawnPosition randint getHeight seed = .error "NameError: random") ∧
    ∀ (getHeight : Int → Int → Int) (fastNoise : Int → Int → Int → ℚ → Bool)
      (disk : ChunkPosition → Bool) (randint : Nat → Int) (fuel : Nat),
      World.init getHeight fastNoise disk randint fuel 7 "world" =
        some (.error "NameError: random") := by
  constructor
  · intro randint getHeight seed; rfl
  · intro getHeight fastNoise disk randint fuel; rfl

/-- Claim C7: out-of-range coordinates make `get_block` return null without
raising and make `set_block` a no-op returning the chunk state unchanged
(cells, both light arrays, height map and flags included); in-range cells
whose stored type is `AIR` also read as null. -/
theorem chunk_bounds_contract :
    (∀ (c : Chunk) (x y z : Int), ¬ Chunk.inBounds x y z →
      c.get_block x y z = .ok none) ∧
    (∀ (c : Chunk) (x y z : Int) (b : Block), ¬ Chunk.inBounds x y z →
      c.set_block x y z b = c) ∧
    ∀ (c : Chunk) (x y z : Int), Chunk.inBounds x y z →
      c.blockTypeArr (Chunk.getIndex x y z) = BlockType.AIR.value →
      c.get_block x y z = .ok none := by
  refine ⟨?_, ?_, ?_⟩
  · intro c x y z h
    simp [Chunk.get_block, h]
  · intro c x y z b h
    simp [Chunk.set_block, h]
  · intro c x y z h hv
    have hAir : BlockType.fromValue BlockType.AIR.value = some .AIR := by decide
    simp [Chunk.get_block, h, hv, hAir]

/-- Witness for `chunk_bounds_contract` at `x = -1` / `x = 16` and at an
in-range air cell of `airChunk`. -/
theorem chunk_bounds_contract_witness :
    (airChunk ⟨0, 0⟩).get_block (-1) 0 0 = .ok none ∧
    (airChunk ⟨0, 0⟩).set_block 16 0 0 { block_type := .STONE } = airChunk ⟨0, 0⟩ ∧
    (airChunk ⟨0, 0⟩).get_block 0 0 0 = .ok none :=
  ⟨chunk_bounds_contract.1 _ (-1) 0 0 (by decide),
   chunk_bounds_contract.2.1 _ 16 0 0 _ (by decide),
   chunk_bounds_contract.2.2 _ 0 0 0 (by decide) (by decide)⟩

set_option maxRecDepth 100000 in
/-- Claim C1, counterexample: over a chunk whose only non-air content is a
2×2×1 stone slab at `y = 0`, `build_mesh` applied to the slab's four block
positions emits 4 top-face quads — one per block, i.e. `w*h` of them — not
exactly one; in all it emits 16 per-block face quads (672 floats at 42
floats per quad), with no greedy merging. -/
theorem build_mesh_slab2x2_top_quads :
    (slabChunk ⟨0, 0⟩ 0 0 0 2 2).topQuadCount
      [(0, 0, 0), (1, 0, 0), (0, 0, 1), (1, 0, 1)] = .ok 4 ∧
    ((slabChunk ⟨0, 0⟩ 0 0 0 2 2).buildMesh
      [(0, 0, 0), (1, 0, 0), (0, 0, 1), (1, 0, 1)]).map List.length = .ok 672 :=
  ⟨by decide, by decide⟩

/-- Claim C9, counterexample: `_spread_light` does not always drive the
lighting to a fixpoint — invoked on a cell holding a stone block it
terminates by raising the AttributeError of `is_transparent` (nonexistent
member `LEAVES`) instead of completing the relaxation. -/
theorem spread_light_raises_on_block :
    LightEngine.spreadLight 1 stoneCellChunk 0 0 0 =
      some (.error "AttributeError: LEAVES") := by rfl

set_option maxRecDepth 400000 in
/-- Claim C10, counterexample: the target chunk of this `set_block` call
exists in the world, and `y = 300` lies outside the vertical range, yet
the call does not return `True`: the edit column lies on the `local_x = 0`
chunk edge, the neighbor chunk is absent, and generating it raises
AttributeError at the nonexistent `BlockType.SNOW` (terrain above
elevation 180), which propagates out of `set_block`. -/
theorem world_set_block_generation_raises :
    World.set_block height300 fnoise0 (fun _ => false) 0 oneChunkWorld 0 300 0
      { block_type := .STONE } = some (.error "AttributeError: SNOW") ∧
    (oneChunkWorld.chunks ⟨0, 0⟩).isSome = true :=
  ⟨by rfl, by rfl⟩

/-- The Block property functions depend only on the `block_type` field. -/
theorem opaqueB_fields (t : BlockType) (m l s : Nat) :
    Block.opaqueB ⟨t, m, l, s⟩ = Block.opaqueB ⟨t, 0, 0, 15⟩ := rfl

theorem transparentB_fields (t : BlockType) (m l s : Nat) :
    Block.transparentB ⟨t, m, l, s⟩ = Block.transparentB ⟨t, 0, 0, 15⟩ := rfl

theorem lightEmission_fields (t : BlockType) (m l s : Nat) :
    Block.lightEmission ⟨t, m, l, s⟩ = Block.lightEmission ⟨t, 0, 0, 15⟩ := rfl

/-- A `foldEx` whose step preserves an invariant and succeeds on every list
element succeeds and preserves the invariant. -/
theorem foldEx_ok_of_inv {σ α : Type} (f : σ → α → Except String σ)
    (P : σ → Prop) :
    ∀ (l : List α), (∀ s a, P s → a ∈ l → ∃ s', f s a = .ok s' ∧ P s') →
    ∀ s, P s → ∃ s', foldEx f s l = .ok s' ∧ P s' := by
  intro l
  induction l with
  | nil => intro _ s hs; exact ⟨s, rfl, hs⟩
  | cons a t ih =>
    intro h s hs
    obtain ⟨s1, hf, hP1⟩ := h s a hs (by simp)
    obtain ⟨s', h2, hP'⟩ := ih (fun s b hsb hb => h s b hsb (by simp [hb])) s1 hP1
    exact ⟨s', by simp [foldEx, hf, h2], hP'⟩

set_option maxRecDepth 10000 in
/-- Every entry of `columnList` lies in the 16 × 16 grid. -/
theorem columnList_mem (p : Int × Int) (hp : p ∈ columnList) :
    0 ≤ p.1 ∧ p.1 < 16 ∧ 0 ≤ p.2 ∧ p.2 < 16 :=
  (by decide : ∀ q ∈ columnList, 0 ≤ q.1 ∧ q.1 < 16 ∧ 0 ≤ q.2 ∧ q.2 < 16) p hp

/-- Reading a uniformly bedrock chunk in bounds yields a bedrock block. -/
theorem get_block_bedrock (c : Chunk) (x y z : Int)
    (hin : Chunk.inBounds x y z)
    (hB : ∀ i, c.blockTypeArr i = BlockType.BEDROCK.value) :
    c.get_block x y z = .ok (some
      { block_type := .BEDROCK,
        metadata := c.blockMetaArr (Chunk.getIndex x y z),
        light_level := c.blockLightArr (Chunk.getIndex x y z),
        sky_light := c.skyLightArr (Chunk.getIndex x y z) }) := by
  have hv : BlockType.fromValue BlockType.BEDROCK.value = some .BEDROCK := by decide
  simp [Chunk.get_block, hin, hB, hv]

/-- The sky-light recomputation of one column succeeds on a uniformly
bedrock chunk and leaves the block types untouched. -/
theorem recalcSkyColumn_bedrock (x z : Int) (hx1 : 0 ≤ x) (hx2 : x < 16)
    (hz1 : 0 ≤ z) (hz2 : z < 16) :
    ∀ (n : Nat) (light : Nat) (c : Chunk), n ≤ 256 →
      (∀ i, c.blockTypeArr i = BlockType.BEDROCK.value) →
      ∃ c', LightEngine.recalcSkyColumn x z n light c = .ok c' ∧
        ∀ i, c'.blockTypeArr i = BlockType.BEDROCK.value := by
  intro n
  induction n with
  | zero => intro light c _ hB; exact ⟨c, rfl, hB⟩
  | succ n ih =>
    intro light c hn hB
    have hin : Chunk.inBounds x (n : Int) z := by
      simp only [Chunk.inBounds, CHUNK_WIDTH, CHUNK_HEIGHT, CHUNK_DEPTH]
      refine ⟨hx1, hx2, by positivity, ?_, hz1, hz2⟩
      exact_mod_cast Nat.lt_of_succ_le hn
    have hop : Block.opaqueB
        { block_type := .BEDROCK,
          metadata := c.blockMetaArr (Chunk.getIndex x (n : Int) z),
          light_level := c.blockLightArr (Chunk.getIndex x (n : Int) z),
          sky_light := c.skyLightArr (Chunk.getIndex x (n : Int) z) } = .ok true := by
      rw [opaqueB_fields]; decide
    obtain ⟨c', hc', hB'⟩ := ih 0
      { c with skyLightArr := arrSet c.skyLightArr (Chunk.getIndex x (n : Int) z) 0 }
      (Nat.le_of_succ_le hn) hB
    refine ⟨c', ?_, hB'⟩
    rw [LightEngine.recalcSkyColumn, get_block_bedrock c x (n : Int) z hin hB]
    simpa [hop] using hc'

/-- The whole-chunk sky pass succeeds on a uniformly bedrock chunk and
leaves the block types untouched. -/
theorem recalcSkyLight_bedrock (c : Chunk)
    (hB : ∀ i, c.blockTypeArr i = BlockType.BEDROCK.value) :
    ∃ c', LightEngine.recalcSkyLight c = .ok c' ∧
      ∀ i, c'.blockTypeArr i = BlockType.BEDROCK.value := by
  unfold LightEngine.recalcSkyLight
  exact foldEx_ok_of_inv _ _ columnList
    (fun s a hs ha => by
      obtain ⟨h1, h2, h3, h4⟩ := columnList_mem a ha
      exact recalcSkyColumn_bedrock a.1 a.2 h1 h2 h3 h4 256 15 s le_rfl hs)
    c hB

/-- A `foldE` whose first step reports an exception reports it. -/
theorem foldE_error_head {σ α : Type} (f : σ → α → Option (Except String σ))
    (s : σ) (a : α) (l : List α) (E : String)
    (h : f s a = some (.error E)) : foldE f s (a :: l) = some (.error E) := by
  simp [foldE, h]

/-- The first cell `_recalculate_block_light` visits is (0, 0, 0). -/
theorem cellList_shape :
    ∃ rest, cellList = ((0 : Int), (0 : Int), (0 : Int)) :: rest := by
  have h : cellList.head? = some ((0 : Int), (0 : Int), (0 : Int)) := by rfl
  cases hc : cellList with
  | nil => rw [hc] at h; simp at h
  | cons b t =>
    rw [hc] at h
    simp only [List.head?_cons, Option.some.injEq] at h
    exact ⟨t, by rw [h]⟩

/-- Reducing `bindEO` over a success, without evaluating anything else. -/
theorem bindEO_ok {α β : Type} (a : α) (f : α → Option (Except String β)) :
    bindEO (.ok a) f = f a := rfl

/-- Claim C8: corrupt or missing chunk files never make `_load_chunk`
raise — `Chunk.load` always fails (its NameError) and the catch-all turns
any load failure into `None` — but the regenerated chunk does not reach
the caller exception-free: the mandatory `update_chunk` lighting pass
raises AttributeError (nonexistent `BlockType.FIRE` in
`get_light_emission`) at the first non-air cell, shown here on a chunk
whose cells all hold `BEDROCK`, as the bottom layers of every generated
chunk do. -/
theorem load_failure_caught_but_lighting_raises :
    (∀ (disk : ChunkPosition → Bool) (w : World) (p : ChunkPosition),
      World.loadChunkFromDisk disk w p = none) ∧
    ∀ fuel : Nat, LightEngine.updateChunk fuel bedrockChunk =
      some (.error "AttributeError: FIRE") := by
  constructor
  · intro disk w p
    have h : Chunk.load p w.save_path = .error "NameError: os" := rfl
    simp [World.loadChunkFromDisk, h]
  · intro fuel
    obtain ⟨c1, hsky, hB1⟩ := recalcSkyLight_bedrock bedrockChunk (fun _ => rfl)
    rw [show LightEngine.updateChunk fuel bedrockChunk =
        bindEO (LightEngine.recalcSkyLight bedrockChunk) (fun c1 =>
          LightEngine.recalcBlockLight fuel c1) from rfl, hsky, bindEO_ok]
    unfold LightEngine.recalcBlockLight
    obtain ⟨rest, hrest⟩ := cellList_shape
    rw [hrest]
    apply foldE_error_head
    have hg := get_block_bedrock { c1 with blockLightArr := fun _ => 0 } 0 0 0
      (by decide) hB1
    have hem : Block.lightEmission
        { block_type := .BEDROCK,
          metadata := ({ c1 with blockLightArr := fun _ => 0 } : Chunk).blockMetaArr
            (Chunk.getIndex 0 0 0),
          light_level := ({ c1 with blockLightArr := fun _ => 0 } : Chunk).blockLightArr
            (Chunk.getIndex 0 0 0),
          sky_light := ({ c1 with blockLightArr := fun _ => 0 } : Chunk).skyLightArr
            (Chunk.getIndex 0 0 0) } = .error "AttributeError: FIRE" := by
      rw [lightEmission_fields]; decide
    simp only [LightEngine.recalcBlockCell, hg, hem]

/-- Membership in the padded BFS domain, unfolded. -/
theorem mem_paddedDomain (p : Int × Int × Int) :
    p ∈ paddedDomain ↔
      -1 ≤ p.1 ∧ p.1 ≤ 16 ∧ -1 ≤ p.2.1 ∧ p.2.1 ≤ 256 ∧ -1 ≤ p.2.2 ∧ p.2.2 ≤ 16 := by
  obtain ⟨a, b, c⟩ := p
  simp [paddedDomain, Finset.mem_product, Finset.mem_Icc, and_assoc]

set_option maxRecDepth 10000 in
/-- Every in-bounds cell lies in the padded domain. -/
theorem inBounds_mem_padded (x y z : Int) (h : Chunk.inBounds x y z) :
    (x, y, z) ∈ paddedDomain := by
  obtain ⟨h1, h2, h3, h4, h5, h6⟩ := h
  rw [mem_paddedDomain]
  dsimp only
  simp only [CHUNK_WIDTH, CHUNK_HEIGHT, CHUNK_DEPTH] at h2 h4 h6
  refine ⟨by omega, by omega, by omega, by omega, by omega, by omega⟩

set_option maxRecDepth 10000 in
/-- Every neighbor of an in-bounds cell lies in the padded domain. -/
theorem neighbor_mem_padded (x y z : Int) (h : Chunk.inBounds x y z)
    (d : Int × Int × Int) (hd : d ∈ neighborOffsets) :
    (x + d.1, y + d.2.1, z + d.2.2) ∈ paddedDomain := by
  have hb := (by decide : ∀ e ∈ neighborOffsets,
    -1 ≤ e.1 ∧ e.1 ≤ 1 ∧ -1 ≤ e.2.1 ∧ e.2.1 ≤ 1 ∧ -1 ≤ e.2.2 ∧ e.2.2 ≤ 1) d hd
  obtain ⟨h1, h2, h3, h4, h5, h6⟩ := h
  simp only [CHUNK_WIDTH, CHUNK_HEIGHT, CHUNK_DEPTH] at h2 h4 h6
  rw [mem_paddedDomain]
  dsimp only
  refine ⟨by omega, by omega, by omega, by omega, by omega, by omega⟩

set_option maxRecDepth 10000 in
/-- The `_set_block_light` BFS completes within any fuel exceeding its
measure: queue length plus 7 tokens per not-yet-visited padded cell. -/
theorem setBlockLightAux_terminates :
    ∀ (fuel : Nat) (c : Chunk) (queue : List (Int × Int × Int × Nat))
      (visited : Finset (Int × Int × Int)),
      (∀ e ∈ queue, (e.1, e.2.1, e.2.2.1) ∈ paddedDomain) →
      visited ⊆ paddedDomain →
      queue.length + 7 * (paddedDomain.card - visited.card) < fuel →
      (LightEngine.setBlockLightAux fuel c queue visited).isSome := by
  intro fuel
  induction fuel with
  | zero => intro c q v _ _ hm; exact absurd hm (by omega)
  | succ fuel ih =>
    intro c queue visited hq hv hm
    match queue with
    | [] => simp [LightEngine.setBlockLightAux]
    | e :: rest =>
      obtain ⟨cx, cy, cz, lv⟩ := e
      have hqp : (cx, cy, cz) ∈ paddedDomain := hq _ (List.mem_cons_self _ rest)
      have hqrest : ∀ e ∈ rest, (e.1, e.2.1, e.2.2.1) ∈ paddedDomain :=
        fun e he => hq e (List.mem_cons_of_mem _ he)
      have hlen : rest.length + 1 + 7 * (paddedDomain.card - visited.card) < fuel + 1 := by
        simpa using hm
      rw [LightEngine.setBlockLightAux]
      dsimp only
      split
      · exact ih c rest visited hqrest hv (by omega)
      · next hvis =>
        have hcard : (insert (cx, cy, cz) visited).card = visited.card + 1 :=
          Finset.card_insert_of_not_mem hvis
        have hsub : insert (cx, cy, cz) visited ⊆ paddedDomain :=
          Finset.insert_subset hqp hv
        have hcardle : (insert (cx, cy, cz) visited).card ≤ paddedDomain.card :=
          Finset.card_le_card hsub
        split
        · exact ih c rest _ hqrest hsub (by omega)
        · next hib' =>
          have hib : Chunk.inBounds cx cy cz := not_not.mp hib'
          split
          · simp
          · exact ih c rest _ hqrest hsub (by omega)
          · split
            · exact ih c rest _ hqrest hsub (by omega)
            · split
              · apply ih
                · intro e he
                  rcases List.mem_append.mp he with h | h
                  · exact hqrest e h
                  · obtain ⟨d, hd, rfl⟩ := List.mem_map.mp h
                    exact neighbor_mem_padded cx cy cz hib d hd
                · exact hsub
                · have h6 : (rest ++ neighborOffsets.map (fun d =>
                      (cx + d.1, cy + d.2.1, cz + d.2.2, lv - 1))).length =
                      rest.length + 6 := by
                    simp [neighborOffsets]
                  omega
              · exact ih _ rest _ hqrest hsub (by omega)

theorem getIndex_mem_intRange (x y z : Int) (h : Chunk.inBounds x y z) :
    Chunk.getIndex x y z ∈ intRange65536 := by
  obtain ⟨h1, h2, h3, h4, h5, h6⟩ := h
  simp only [CHUNK_WIDTH, CHUNK_HEIGHT, CHUNK_DEPTH] at h2 h4 h6
  simp only [intRange65536, Finset.mem_map, Finset.mem_range,
    Function.Embedding.coeFn_mk]
  refine ⟨(Chunk.getIndex x y z).toNat, ?_, ?_⟩
  · unfold Chunk.getIndex CHUNK_DEPTH CHUNK_WIDTH
    omega
  · unfold Chunk.getIndex CHUNK_DEPTH CHUNK_WIDTH
    omega

theorem lightPotential_update_lt (c : Chunk) (i : Int) (v : Nat)
    (hi : i ∈ intRange65536) (hlt : c.blockLightArr i < v) (hv : v ≤ 255) :
    lightPotential { c with blockLightArr := arrSet c.blockLightArr i v } <
      lightPotential c := by
  unfold lightPotential arrSet
  have hfun : ∀ j ∈ intRange65536,
      255 - Function.update c.blockLightArr i v j =
      Function.update (fun k => 255 - c.blockLightArr k) i (255 - v) j := by
    intro j _
    by_cases hj : j = i <;> simp [Function.update_apply, hj]
  rw [Finset.sum_congr rfl hfun, Finset.sum_update_of_mem hi]
  rw [← Finset.add_sum_erase _ (fun k => 255 - c.blockLightArr k) hi]
  rw [Finset.erase_eq]
  omega

theorem wf_update (c : Chunk) (i : Int) (v : Nat) (hv : v ≤ 255)
    (hWF : ∀ j, c.blockLightArr j ≤ 255) :
    ∀ j, ({ c with blockLightArr := arrSet c.blockLightArr i v } : Chunk).blockLightArr j ≤ 255 := by
  intro j
  by_cases hj : j = i
  · simp [arrSet, Function.update_apply, hj, hv]
  · simp only [arrSet, Function.update_apply, if_neg hj]
    exact hWF j

theorem bindO_ok {α β : Type} (a : α) (f : α → Option (Except String β)) :
    bindO (some (.ok a)) f = f a := rfl

theorem bindO_err {α β : Type} (e : String) (f : α → Option (Except String β)) :
    bindO (some (.error e)) f = some (.error e) := rfl

theorem foldl_max_light_le (c : Chunk) (x y z : Int)
    (hWF : ∀ i, c.blockLightArr i ≤ 255) :
    ∀ (l : List (Int × Int × Int)) (m : Nat), m ≤ 255 →
      l.foldl (fun m d =>
        let nx := x + d.1
        let ny := y + d.2.1
        let nz := z + d.2.2
        if Chunk.inBounds nx ny nz then
          max m (c.blockLightArr (Chunk.getIndex nx ny nz))
        else m) m ≤ 255 := by
  intro l
  induction l with
  | nil => intro m hm; simpa using hm
  | cons a t iht =>
    intro m hm
    simp only [List.foldl_cons]
    apply iht
    dsimp only
    split
    · exact max_le hm (hWF _)
    · exact hm

theorem spreadSix_good
    (recur : Chunk → Int → Int → Int → Option (Except String Chunk))
    (c1 : Chunk) (x y z : Int)
    (hWF1 : ∀ i, c1.blockLightArr i ≤ 255)
    (hrec : ∀ (ci : Chunk) (xx yy zz : Int),
      (∀ i, ci.blockLightArr i ≤ 255) → lightPotential ci ≤ lightPotential c1 →
      ∃ r, recur ci xx yy zz = some r ∧
        ∀ c', r = .ok c' → (∀ i, c'.blockLightArr i ≤ 255) ∧
          lightPotential c' ≤ lightPotential ci) :
    ∃ r, LightEngine.spreadSix recur c1 x y z = some r ∧
      ∀ c', r = .ok c' → (∀ i, c'.blockLightArr i ≤ 255) ∧
        lightPotential c' ≤ lightPotential c1 := by
  have step6 : ∀ (c6 : Chunk), (∀ i, c6.blockLightArr i ≤ 255) →
      lightPotential c6 ≤ lightPotential c1 →
      ∃ r, (if 0 < y then recur c6 x (y - 1) z else some (.ok c6)) = some r ∧
        ∀ c', r = .ok c' → (∀ i, c'.blockLightArr i ≤ 255) ∧
          lightPotential c' ≤ lightPotential c1 := by
    intro c6 hWF6 hP6
    by_cases hy0 : 0 < y
    · rw [if_pos hy0]
      obtain ⟨r, hr, g⟩ := hrec c6 x (y - 1) z hWF6 hP6
      exact ⟨r, hr, fun c' h => ⟨(g c' h).1, le_trans (g c' h).2 hP6⟩⟩
    · rw [if_neg hy0]
      exact ⟨.ok c6, rfl, fun c' h => (Except.ok.inj h) ▸ ⟨hWF6, hP6⟩⟩
  have last2 : ∀ (c5 : Chunk), (∀ i, c5.blockLightArr i ≤ 255) →
      lightPotential c5 ≤ lightPotential c1 →
      ∃ r, (bindO (if y < CHUNK_HEIGHT - 1 then recur c5 x (y + 1) z
              else some (.ok c5)) (fun c6 =>
            if 0 < y then recur c6 x (y - 1) z else some (.ok c6))) = some r ∧
        ∀ c', r = .ok c' → (∀ i, c'.blockLightArr i ≤ 255) ∧
          lightPotential c' ≤ lightPotential c1 := by
    intro c5 hWF5 hP5
    by_cases hy1 : y < CHUNK_HEIGHT - 1
    · rw [if_pos hy1]
      obtain ⟨r5, hr5, g5⟩ := hrec c5 x (y + 1) z hWF5 hP5
      rw [hr5]
      cases r5 with
      | error e => rw [bindO_err]; exact ⟨_, rfl, fun c' h => Except.noConfusion h⟩
      | ok c6 =>
        rw [bindO_ok]
        obtain ⟨hWF6, hP6⟩ := g5 c6 rfl
        exact step6 c6 hWF6 (le_trans hP6 hP5)
    · rw [if_neg hy1, bindO_ok]
      exact step6 c5 hWF5 hP5
  unfold LightEngine.spreadSix
  obtain ⟨r1, hr1, g1⟩ := hrec c1 x y (z + 1) hWF1 le_rfl
  rw [hr1]
  cases r1 with
  | error e => rw [bindO_err]; exact ⟨_, rfl, fun c' h => Except.noConfusion h⟩
  | ok c2 =>
    rw [bindO_ok]
    obtain ⟨hWF2, hP2⟩ := g1 c2 rfl
    obtain ⟨r2, hr2, g2⟩ := hrec c2 x y (z - 1) hWF2 hP2
    rw [hr2]
    cases r2 with
    | error e => rw [bindO_err]; exact ⟨_, rfl, fun c' h => Except.noConfusion h⟩
    | ok c3 =>
      rw [bindO_ok]
      obtain ⟨hWF3, hP3⟩ := g2 c3 rfl
      have hP3' : lightPotential c3 ≤ lightPotential c1 := le_trans hP3 hP2
      obtain ⟨r3, hr3, g3⟩ := hrec c3 (x + 1) y z hWF3 hP3'
      rw [hr3]
      cases r3 with
      | error e => rw [bindO_err]; exact ⟨_, rfl, fun c' h => Except.noConfusion h⟩
      | ok c4 =>
        rw [bindO_ok]
        obtain ⟨hWF4, hP4⟩ := g3 c4 rfl
        have hP4' : lightPotential c4 ≤ lightPotential c1 := le_trans hP4 hP3'
        obtain ⟨r4, hr4, g4⟩ := hrec c4 (x - 1) y z hWF4 hP4'
        rw [hr4]
        cases r4 with
        | error e => rw [bindO_err]; exact ⟨_, rfl, fun c' h => Except.noConfusion h⟩
        | ok c5 =>
          rw [bindO_ok]
          obtain ⟨hWF5, hP5⟩ := g4 c5 rfl
          exact last2 c5 hWF5 (le_trans hP5 hP4')

set_option maxRecDepth 10000 in
theorem spreadLight_terminates :
    ∀ (fuel : Nat) (c : Chunk) (x y z : Int),
      (∀ i, c.blockLightArr i ≤ 255) →
      lightPotential c < fuel →
      ∃ r, LightEngine.spreadLight fuel c x y z = some r ∧
        ∀ c', r = .ok c' → (∀ i, c'.blockLightArr i ≤ 255) ∧
          lightPotential c' ≤ lightPotential c := by
  intro fuel
  induction fuel with
  | zero => intro c x y z _ hm; exact absurd hm (by omega)
  | succ fuel ih =>
    intro c x y z hWF hm
    rw [LightEngine.spreadLight]
    dsimp only
    split
    · exact ⟨.ok c, rfl, fun c' h => (Except.ok.inj h) ▸ ⟨hWF, le_rfl⟩⟩
    · next hib' =>
      have hib : Chunk.inBounds x y z := not_not.mp hib'
      split
      · exact ⟨_, rfl, fun c' h => Except.noConfusion h⟩
      · exact ⟨.ok c, rfl, fun c' h => (Except.ok.inj h) ▸ ⟨hWF, le_rfl⟩⟩
      · have branch : ∀ (nl : Nat), nl ≤ 255 →
            c.blockLightArr (Chunk.getIndex x y z) < nl →
            ∃ r, LightEngine.spreadSix (LightEngine.spreadLight fuel)
                { c with blockLightArr :=
                    arrSet c.blockLightArr (Chunk.getIndex x y z) nl } x y z = some r ∧
              ∀ c', r = .ok c' → (∀ i, c'.blockLightArr i ≤ 255) ∧
                lightPotential c' ≤ lightPotential c := by
          intro nl hnl hlt2
          have hWF1 := wf_update c (Chunk.getIndex x y z) nl hnl hWF
          have hPlt := lightPotential_update_lt c (Chunk.getIndex x y z) nl
            (getIndex_mem_intRange x y z hib) hlt2 hnl
          obtain ⟨r, hr, g⟩ := spreadSix_good (LightEngine.spreadLight fuel) _ x y z hWF1
            (fun ci xx yy zz hWFi hPi => ih ci xx yy zz hWFi (by omega))
          exact ⟨r, hr, fun c' h => ⟨(g c' h).1, le_trans (g c' h).2 (le_of_lt hPlt)⟩⟩
        split
        · next hlt =>
          exact branch _ (Nat.le_trans (Nat.sub_le _ 1)
            (foldl_max_light_le c x y z hWF neighborOffsets 0 (by omega))) hlt
        · exact ⟨.ok c, rfl, fun c' h => (Except.ok.inj h) ▸ ⟨hWF, le_rfl⟩⟩



set_option maxRecDepth 10000 in
/-- Claim C9, amended: block-light propagation always performs finitely
many steps.  The `_set_block_light` BFS completes within some finite fuel
for every chunk state and in-range seed cell (the visited set, together
with the stored-level cutoff, bounds the traversal by the padded
coordinate domain), and the recursive `_spread_light` completes within
some finite fuel for every byte-valued (≤ 255) light array, because every
recursive call strictly raises some cell.  Completion may be by the
normal fixpoint or by the `is_transparent` AttributeError — see the
counterexample. -/
theorem light_propagation_terminates :
    (∀ (c : Chunk) (x y z : Int) (light : Nat), Chunk.inBounds x y z →
      ∃ fuel, (LightEngine.setBlockLight fuel c x y z light).isSome) ∧
    ∀ (c : Chunk) (x y z : Int), (∀ i, c.blockLightArr i ≤ 255) →
      ∃ fuel, (LightEngine.spreadLight fuel c x y z).isSome := by
  constructor
  · intro c x y z light hin
    by_cases h0 : light = 0
    · exact ⟨1, by simp [LightEngine.setBlockLight, h0]⟩
    · refine ⟨1 + 7 * paddedDomain.card + 1, ?_⟩
      unfold LightEngine.setBlockLight
      rw [if_neg h0]
      apply setBlockLightAux_terminates
      · intro e he
        simp only [List.mem_singleton] at he
        subst he
        dsimp only
        exact inBounds_mem_padded x y z hin
      · exact Finset.empty_subset _
      · have hl : ([(x, y, z, light)] : List (Int × Int × Int × Nat)).length = 1 := rfl
        rw [hl]
        omega
  · intro c x y z hWF
    obtain ⟨r, hr, _⟩ :=
      spreadLight_terminates (lightPotential c + 1) c x y z hWF (by omega)
    exact ⟨lightPotential c + 1, by simp [hr]⟩

/-- Witness for `light_propagation_terminates` on an all-air, all-dark
chunk, seeding at the in-range cell (5, 10, 5) with level 14. -/
theorem light_propagation_terminates_witness :
    (∃ fuel, (LightEngine.setBlockLight fuel (airChunk ⟨0, 0⟩) 5 10 5 14).isSome) ∧
    ∃ fuel, (LightEngine.spreadLight fuel (airChunk ⟨0, 0⟩) 5 10 5).isSome :=
  ⟨light_propagation_terminates.1 (airChunk ⟨0, 0⟩) 5 10 5 14 (by decide),
   light_propagation_terminates.2 (airChunk ⟨0, 0⟩) 5 10 5
     (fun i => by simp [airChunk, Chunk.new])⟩

theorem slabChunk_blockType (x0 z0 y0 : Int) (w h : Nat) (x y z : Int)
    (hin : Chunk.inBounds x y z) :
    (slabChunk ⟨0, 0⟩ x0 z0 y0 w h).blockTypeArr (Chunk.getIndex x y z) =
      if y = y0 ∧ x0 ≤ x ∧ x < x0 + w ∧ z0 ≤ z ∧ z < z0 + h
      then BlockType.STONE.value else BlockType.AIR.value := by
  obtain ⟨h1, h2, h3, h4, h5, h6⟩ := hin
  simp only [CHUNK_WIDTH, CHUNK_HEIGHT, CHUNK_DEPTH] at h2 h4 h6
  have hx : (Chunk.getIndex x y z) % 16 = x := by
    unfold Chunk.getIndex CHUNK_WIDTH CHUNK_DEPTH; omega
  have hz : (Chunk.getIndex x y z) / 16 % 16 = z := by
    unfold Chunk.getIndex CHUNK_WIDTH CHUNK_DEPTH; omega
  have hy : (Chunk.getIndex x y z) / 16 / 16 = y := by
    unfold Chunk.getIndex CHUNK_WIDTH CHUNK_DEPTH; omega
  have h0 : 0 ≤ Chunk.getIndex x y z := by
    unfold Chunk.getIndex CHUNK_WIDTH CHUNK_DEPTH; omega
  show (if 0 ≤ Chunk.getIndex x y z ∧
      (Chunk.getIndex x y z) / 16 / 16 = y0 ∧
      x0 ≤ (Chunk.getIndex x y z) % 16 ∧
      (Chunk.getIndex x y z) % 16 < x0 + w ∧
      z0 ≤ (Chunk.getIndex x y z) / 16 % 16 ∧
      (Chunk.getIndex x y z) / 16 % 16 < z0 + h
    then BlockType.STONE.value else BlockType.AIR.value) = _
  rw [hx, hz, hy]
  simp [h0]

theorem slabChunk_get_block_stone (x0 z0 y0 : Int) (w h : Nat) (x y z : Int)
    (hin : Chunk.inBounds x y z)
    (hs : y = y0 ∧ x0 ≤ x ∧ x < x0 + w ∧ z0 ≤ z ∧ z < z0 + h) :
    (slabChunk ⟨0, 0⟩ x0 z0 y0 w h).get_block x y z =
      .ok (some { block_type := .STONE, metadata := 0, light_level := 0,
                  sky_light := 15 }) := by
  have hb := slabChunk_blockType x0 z0 y0 w h x y z hin
  rw [if_pos hs] at hb
  have hv : BlockType.fromValue BlockType.STONE.value = some .STONE := by decide
  unfold Chunk.get_block
  rw [if_pos hin]
  dsimp only
  rw [hb, hv]
  simp [slabChunk, Chunk.new]

theorem slabChunk_get_block_none (x0 z0 y0 : Int) (w h : Nat) (x y z : Int)
    (hs : ¬ (Chunk.inBounds x y z ∧
      y = y0 ∧ x0 ≤ x ∧ x < x0 + w ∧ z0 ≤ z ∧ z < z0 + h)) :
    (slabChunk ⟨0, 0⟩ x0 z0 y0 w h).get_block x y z = .ok none := by
  by_cases hin : Chunk.inBounds x y z
  · have hb := slabChunk_blockType x0 z0 y0 w h x y z hin
    rw [if_neg (fun hc => hs ⟨hin, hc⟩)] at hb
    have hv : BlockType.fromValue BlockType.AIR.value = some .AIR := by decide
    simp [Chunk.get_block, hin, hb, hv]
  · simp [Chunk.get_block, hin]

theorem slabChunk_get_block_shape (x0 z0 y0 : Int) (w h : Nat) (x y z : Int) :
    (slabChunk ⟨0, 0⟩ x0 z0 y0 w h).get_block x y z = .ok none ∨
    (slabChunk ⟨0, 0⟩ x0 z0 y0 w h).get_block x y z =
      .ok (some { block_type := .STONE, metadata := 0, light_level := 0,
                  sky_light := 15 }) := by
  by_cases hs : Chunk.inBounds x y z ∧
      y = y0 ∧ x0 ≤ x ∧ x < x0 + w ∧ z0 ≤ z ∧ z < z0 + h
  · exact .inr (slabChunk_get_block_stone x0 z0 y0 w h x y z hs.1 hs.2)
  · exact .inl (slabChunk_get_block_none x0 z0 y0 w h x y z hs)

/-- One `visibleFaceStep` on a chunk whose cells read as air or stone
appends at most a singleton tagged with the entry's own face. -/
theorem visibleFaceStep_shape (c : Chunk) (block : Block) (x y z : Int)
    (hshape : ∀ (nx ny nz : Int), c.get_block nx ny nz = .ok none ∨
      c.get_block nx ny nz =
        .ok (some { block_type := .STONE, metadata := 0, light_level := 0,
                    sky_light := 15 }))
    (visible : List (Face × Nat)) (entry : Face × (Int × Int × Int)) :
    ∃ app : List (Face × Nat),
      c.visibleFaceStep block x y z visible entry = .ok (visible ++ app) ∧
      ∀ fl ∈ app, fl.1 = entry.1 := by
  unfold Chunk.visibleFaceStep
  rcases hshape entry.2.1 entry.2.2.1 entry.2.2.2 with hg | hg
  · rw [hg]
    exact ⟨[(entry.1, c.getLightLevel x y z entry.1)], rfl, by simp⟩
  · rw [hg]
    have hop : Block.opaqueB
        { block_type := .STONE, metadata := 0,
          light_level := 0, sky_light := 15 } = .ok true := by decide
    refine ⟨[], ?_, by simp⟩
    dsimp only
    rw [hop]
    simp

/-- A `foldEx` of `visibleFaceStep` over any entry list, on a chunk whose
cells all read as air or the standard stone block, appends entries tagged
only with faces occurring in the list. -/
theorem foldEx_faceStep_shape (c : Chunk) (block : Block) (x y z : Int)
    (hshape : ∀ (nx ny nz : Int), c.get_block nx ny nz = .ok none ∨
      c.get_block nx ny nz =
        .ok (some { block_type := .STONE, metadata := 0, light_level := 0,
                    sky_light := 15 }))
    (l : List (Face × (Int × Int × Int))) :
    ∀ visible : List (Face × Nat),
      ∃ app : List (Face × Nat),
        foldEx (c.visibleFaceStep block x y z) visible l =
          .ok (visible ++ app) ∧
        ∀ fl ∈ app, ∃ e ∈ l, fl.1 = e.1 := by
  induction l with
  | nil => intro visible; exact ⟨[], by simp [foldEx], by simp⟩
  | cons a l ih =>
    intro visible
    obtain ⟨app1, h1, h1f⟩ := visibleFaceStep_shape c block x y z hshape visible a
    obtain ⟨app2, h2, h2f⟩ := ih (visible ++ app1)
    refine ⟨app1 ++ app2, ?_, ?_⟩
    · simp only [foldEx]
      rw [h1]
      dsimp only
      rw [h2, List.append_assoc]
    · intro fl hfl
      rcases List.mem_append.mp hfl with hm | hm
      · exact ⟨a, by simp, h1f fl hm⟩
      · obtain ⟨e, he, hfe⟩ := h2f fl hm
        exact ⟨e, by simp [he], hfe⟩

/-- One-step unfolding of `foldEx` when the head step succeeds. -/
theorem foldEx_cons_ok {σ α : Type} (f : σ → α → Except String σ)
    (s s' : σ) (a : α) (l : List α) (h : f s a = .ok s') :
    foldEx f s (a :: l) = foldEx f s' l := by
  simp [foldEx, h]

/-- For a block of the slab of `slabChunk` (with the slab strictly inside
the horizontal range and at height `0 ≤ y0 < 256`), `_get_visible_faces`
succeeds and reports exactly one `top` face: the cell above the slab is
always air. -/
theorem slab_visibleFaces_top (x0 z0 y0 : Int) (w h : Nat) (x z : Int)
    (hx0 : 0 ≤ x0) (hxw : x0 + w ≤ 16) (hz0 : 0 ≤ z0) (hzh : z0 + h ≤ 16)
    (hy0 : 0 ≤ y0) (hyh : y0 < 256)
    (hx : x0 ≤ x ∧ x < x0 + w) (hz : z0 ≤ z ∧ z < z0 + h) :
    ∃ faces,
      (slabChunk ⟨0, 0⟩ x0 z0 y0 w h).getVisibleFaces x y0 z = .ok faces ∧
      (faces.filter (fun fl => fl.1 = Face.top)).length = 1 := by
  have hin : Chunk.inBounds x y0 z := by
    unfold Chunk.inBounds CHUNK_WIDTH CHUNK_HEIGHT CHUNK_DEPTH
    omega
  have hc := slabChunk_get_block_stone x0 z0 y0 w h x y0 z hin
    ⟨rfl, hx.1, hx.2, hz.1, hz.2⟩
  unfold Chunk.getVisibleFaces
  rw [hc]
  dsimp only
  have htop : (slabChunk ⟨0, 0⟩ x0 z0 y0 w h).get_block x (y0 + 1) z =
      .ok none := by
    refine slabChunk_get_block_none x0 z0 y0 w h x (y0 + 1) z ?_
    rintro ⟨-, heq, -⟩
    omega
  have hstep : (slabChunk ⟨0, 0⟩ x0 z0 y0 w h).visibleFaceStep
      { block_type := .STONE, metadata := 0, light_level := 0,
        sky_light := 15 } x y0 z []
      (Face.top, (x, y0 + 1, z)) =
      .ok [(Face.top,
        (slabChunk ⟨0, 0⟩ x0 z0 y0 w h).getLightLevel x y0 z Face.top)] := by
    unfold Chunk.visibleFaceStep
    dsimp only
    rw [htop]
    rfl
  rw [foldEx_cons_ok _ _ _ _ _ hstep]
  obtain ⟨app, happ, hfl⟩ := foldEx_faceStep_shape
    (slabChunk ⟨0, 0⟩ x0 z0 y0 w h)
    { block_type := .STONE, metadata := 0, light_level := 0, sky_light := 15 }
    x y0 z (slabChunk_get_block_shape x0 z0 y0 w h)
    [(Face.bottom, (x, y0 - 1, z)), (Face.front, (x, y0, z + 1)),
     (Face.back, (x, y0, z - 1)), (Face.right, (x + 1, y0, z)),
     (Face.left, (x - 1, y0, z))]
    [(Face.top, (slabChunk ⟨0, 0⟩ x0 z0 y0 w h).getLightLevel x y0 z Face.top)]
  rw [happ]
  refine ⟨_, rfl, ?_⟩
  rw [List.filter_append]
  have hnil : app.filter (fun fl => fl.1 = Face.top) = [] := by
    rw [List.filter_eq_nil_iff]
    intro fl hm
    obtain ⟨e, he, hfe⟩ := hfl fl hm
    simp only [List.mem_cons, List.mem_singleton] at he
    rcases he with rfl | rfl | rfl | rfl | rfl | he
    · simp [hfe]
    · simp [hfe]
    · simp [hfe]
    · simp [hfe]
    · simp [hfe]
    · simp at he
  rw [hnil]
  simp

/-- Membership in `slabPositions` pins the coordinates. -/
theorem slabPositions_mem (x0 z0 y0 : Int) (w h : Nat) (p : Int × Int × Int)
    (hp : p ∈ slabPositions x0 z0 y0 w h) :
    ∃ i j : Nat, i < w ∧ j < h ∧ p = (x0 + i, y0, z0 + j) := by
  unfold slabPositions at hp
  rw [List.mem_flatMap] at hp
  obtain ⟨i, hi, hp⟩ := hp
  rw [List.mem_map] at hp
  obtain ⟨j, hj, rfl⟩ := hp
  rw [List.mem_range] at hi
  rw [List.mem_range] at hj
  exact ⟨i, j, hi, hj, rfl⟩

/-- `slabPositions` enumerates `w * h` positions. -/
theorem slabPositions_length (x0 z0 y0 : Int) (w h : Nat) :
    (slabPositions x0 z0 y0 w h).length = w * h := by
  unfold slabPositions
  rw [List.length_flatMap]
  have hsum : ∀ l : List Nat, (l.map (List.length ∘ fun i : Nat =>
      (List.range h).map
        (fun j : Nat => (x0 + (i : Int), y0, z0 + (j : Int))))).sum =
      l.length * h := by
    intro l
    induction l with
    | nil => simp
    | cons a l ih =>
      simp only [List.map_cons, List.sum_cons, ih, List.length_cons,
        Function.comp, List.length_map, List.length_range]
      ring
  rw [hsum]
  simp [Nat.mul_comm]

theorem position_slabChunk (x0 z0 y0 : Int) (w h : Nat) :
    (slabChunk ⟨0, 0⟩ x0 z0 y0 w h).position = ⟨0, 0⟩ := rfl

/-- On every listed slab position, the quad-counting step of `build_mesh`
adds exactly one `top` quad. -/
theorem slab_quadStep (x0 z0 y0 : Int) (w h : Nat)
    (hx0 : 0 ≤ x0) (hxw : x0 + w ≤ 16) (hz0 : 0 ≤ z0) (hzh : z0 + h ≤ 16)
    (hy0 : 0 ≤ y0) (hyh : y0 < 256)
    (p : Int × Int × Int) (hp : p ∈ slabPositions x0 z0 y0 w h) (n : Nat) :
    (slabChunk ⟨0, 0⟩ x0 z0 y0 w h).quadStep n p = .ok (n + 1) := by
  obtain ⟨i, j, hi, hj, rfl⟩ := slabPositions_mem x0 z0 y0 w h p hp
  have hxb : x0 ≤ x0 + (i : Int) ∧ x0 + (i : Int) < x0 + w := by omega
  have hzb : z0 ≤ z0 + (j : Int) ∧ z0 + (j : Int) < z0 + h := by omega
  have hin : Chunk.inBounds (x0 + (i : Int)) y0 (z0 + (j : Int)) := by
    unfold Chunk.inBounds CHUNK_WIDTH CHUNK_HEIGHT CHUNK_DEPTH
    omega
  unfold Chunk.quadStep
  rw [position_slabChunk]
  dsimp only
  have e1 : x0 + (i : Int) - 0 * CHUNK_WIDTH = x0 + (i : Int) := by
    unfold CHUNK_WIDTH; ring
  have e2 : z0 + (j : Int) - 0 * CHUNK_DEPTH = z0 + (j : Int) := by
    unfold CHUNK_DEPTH; ring
  rw [e1, e2, if_pos hin]
  rw [slabChunk_get_block_stone x0 z0 y0 w h (x0 + (i : Int)) y0
    (z0 + (j : Int)) hin ⟨rfl, hxb.1, hxb.2, hzb.1, hzb.2⟩]
  dsimp only
  obtain ⟨faces, hf, hlen⟩ := slab_visibleFaces_top x0 z0 y0 w h
    (x0 + (i : Int)) (z0 + (j : Int)) hx0 hxw hz0 hzh hy0 hyh hxb hzb
  rw [hf]
  dsimp only
  rw [hlen]

/-- A `foldEx` whose step always succeeds adding one counts the list. -/
theorem foldEx_count {α : Type} (f : Nat → α → Except String Nat) (l : List α)
    (hf : ∀ n a, a ∈ l → f n a = .ok (n + 1)) :
    ∀ n, foldEx f n l = .ok (n + l.length) := by
  induction l with
  | nil => intro n; simp [foldEx]
  | cons a l ih =>
    intro n
    rw [foldEx_cons_ok f n (n + 1) a l (hf n a (by simp))]
    have hlen : n + (a :: l).length = (n + 1) + l.length := by
      simp [List.length_cons]
      omega
    rw [hlen]
    exact ih (fun m b hb => hf m b (by simp [hb])) (n + 1)

/-- Every cell of `airChunk` reads back as `None` (`AIR` gives `None`,
out-of-range gives `None`). -/
theorem airChunk_get_block (pos : ChunkPosition) (x y z : Int) :
    (airChunk pos).get_block x y z = .ok none := by
  by_cases hin : Chunk.inBounds x y z
  · have hb : (airChunk pos).blockTypeArr (Chunk.getIndex x y z) =
        BlockType.AIR.value := rfl
    have hv : BlockType.fromValue BlockType.AIR.value = some .AIR := by decide
    simp [Chunk.get_block, hin, hb, hv]
  · simp [Chunk.get_block, hin]

/-- One `build_mesh` step on `airChunk` leaves the vertex list unchanged. -/
theorem airChunk_meshStep (pos : ChunkPosition) (vs : List ℚ)
    (p : Int × Int × Int) :
    (airChunk pos).meshStep vs p = .ok vs := by
  unfold Chunk.meshStep
  dsimp only
  split
  · rw [airChunk_get_block]
  · rfl

theorem foldEx_airChunk_meshStep (pos : ChunkPosition)
    (ps : List (Int × Int × Int)) :
    ∀ vs, foldEx (airChunk pos).meshStep vs ps = .ok vs := by
  induction ps with
  | nil => intro vs; rfl
  | cons p ps ih =>
    intro vs
    rw [foldEx_cons_ok _ _ _ _ _ (airChunk_meshStep pos vs p)]
    exact ih vs

/-- `build_mesh` over a chunk containing no non-air blocks returns an empty
vertex array, whatever positions are traversed. -/
theorem buildMesh_airChunk (pos : ChunkPosition)
    (ps : List (Int × Int × Int)) :
    (airChunk pos).buildMesh ps = .ok [] := by
  unfold Chunk.buildMesh
  exact foldEx_airChunk_meshStep pos ps []

/-- Claim C1, amended: `build_mesh` performs per-block face culling, not
greedy merging — over a chunk whose only non-air content is a solid stone
slab of size `w × h × 1` (strictly inside the chunk), traversing the slab's
block positions emits exactly `w * h` top-face quads, one per block; and
over a chunk containing no non-air blocks it returns an empty vertex
array. -/
theorem build_mesh_per_face_quads (x0 z0 y0 : Int) (w h : Nat)
    (hx0 : 0 ≤ x0) (hxw : x0 + w ≤ 16) (hz0 : 0 ≤ z0) (hzh : z0 + h ≤ 16)
    (hy0 : 0 ≤ y0) (hyh : y0 < 256) :
    (slabChunk ⟨0, 0⟩ x0 z0 y0 w h).topQuadCount (slabPositions x0 z0 y0 w h)
      = .ok (w * h) ∧
    ∀ (pos : ChunkPosition) (ps : List (Int × Int × Int)),
      (airChunk pos).buildMesh ps = .ok [] := by
  constructor
  · unfold Chunk.topQuadCount
    rw [foldEx_count ((slabChunk ⟨0, 0⟩ x0 z0 y0 w h).quadStep)
      (slabPositions x0 z0 y0 w h)
      (fun n p hp => slab_quadStep x0 z0 y0 w h hx0 hxw hz0 hzh hy0 hyh p hp n)
      0]
    rw [slabPositions_length]
    simp
  · exact fun pos ps => buildMesh_airChunk pos ps

/-- Witness for `build_mesh_per_face_quads` on a 3×2 slab at height 10 and
an air chunk. -/
theorem build_mesh_per_face_quads_witness :
    (slabChunk ⟨0, 0⟩ 4 1 10 3 2).topQuadCount (slabPositions 4 1 10 3 2)
      = .ok (3 * 2) ∧
    (airChunk ⟨0, 0⟩).buildMesh [(0, 64, 0), (20, 5, -3)] = .ok [] := by
  have h := build_mesh_per_face_quads 4 1 10 3 2 (by decide) (by decide)
    (by decide) (by decide) (by decide) (by decide)
  exact ⟨h.1, h.2 ⟨0, 0⟩ _⟩

/-- On a chunk whose cells all store `AIR`, every `get_block` read gives
`None`. -/
theorem allAir_get_block (c : Chunk)
    (hair : ∀ i, c.blockTypeArr i = BlockType.AIR.value) (x y z : Int) :
    c.get_block x y z = .ok none := by
  by_cases hin : Chunk.inBounds x y z
  · have hv : BlockType.fromValue BlockType.AIR.value = some .AIR := by decide
    simp [Chunk.get_block, hin, hair, hv]
  · simp [Chunk.get_block, hin]

/-- The neighbor maximum of `_spread_light` over an all-dark light array
stays zero. -/
theorem foldl_max_light_dark (c : Chunk) (x y z : Int)
    (hdark : ∀ i, c.blockLightArr i = 0) :
    ∀ (l : List (Int × Int × Int)) (m : Nat), m ≤ 0 →
      l.foldl (fun m d =>
        let nx := x + d.1
        let ny := y + d.2.1
        let nz := z + d.2.2
        if Chunk.inBounds nx ny nz then
          max m (c.blockLightArr (Chunk.getIndex nx ny nz))
        else m) m ≤ 0 := by
  intro l
  induction l with
  | nil => intro m hm; simpa using hm
  | cons a t iht =>
    intro m hm
    simp only [List.foldl_cons]
    apply iht
    dsimp only
    split
    · exact max_le hm (le_of_eq (hdark _))
    · exact hm

/-- `_spread_light` is a no-op on an all-air, all-dark chunk: the cell is
transparent-by-absence, but the neighbor maximum is 0, so no level is
written and no recursion happens. -/
theorem spreadLight_dark_air (c : Chunk)
    (hair : ∀ i, c.blockTypeArr i = BlockType.AIR.value)
    (hdark : ∀ i, c.blockLightArr i = 0) (f : Nat) (x y z : Int) :
    LightEngine.spreadLight (f + 1) c x y z = some (.ok c) := by
  rw [LightEngine.spreadLight]
  dsimp only
  split
  · rfl
  · rw [allAir_get_block c hair x y z]
    dsimp only
    split
    · next hlt =>
      exact absurd hlt (Nat.not_lt.mpr (le_trans (Nat.sub_le_sub_right
        (foldl_max_light_dark c x y z hdark neighborOffsets 0 le_rfl) 1)
        (Nat.zero_le _)))
    · rfl

/-- A `foldE` whose step fixes the state succeeds with that state. -/
theorem foldE_const_ok {σ α : Type} (g : σ → α → Option (Except String σ))
    (c : σ) (l : List α) (h : ∀ a ∈ l, g c a = some (.ok c)) :
    foldE g c l = some (.ok c) := by
  induction l with
  | nil => rfl
  | cons a t ih =>
    have ha := h a (by simp)
    calc foldE g c (a :: t) = foldE g c t := by simp [foldE, ha]
      _ = some (.ok c) := ih (fun b hb => h b (by simp [hb]))

/-- `_propagate_light` is a no-op on an all-air, all-dark chunk. -/
theorem propagateLight_dark_air (c : Chunk)
    (hair : ∀ i, c.blockTypeArr i = BlockType.AIR.value)
    (hdark : ∀ i, c.blockLightArr i = 0) (f : Nat) (x y z : Int) :
    LightEngine.propagateLight (f + 1) c x y z = some (.ok c) := by
  unfold LightEngine.propagateLight
  apply foldE_const_ok
  intro d hd
  dsimp only
  split
  · exact spreadLight_dark_air c hair hdark f _ _ _
  · rfl

/-- `update_block` on an all-air, all-dark chunk reads `None` at the cell
and the ensuing propagation is a no-op. -/
theorem updateBlock_dark_air (c : Chunk)
    (hair : ∀ i, c.blockTypeArr i = BlockType.AIR.value)
    (hdark : ∀ i, c.blockLightArr i = 0) (f : Nat) (x y z : Int) :
    LightEngine.updateBlock (f + 1) c x y z = some (.ok c) := by
  unfold LightEngine.updateBlock
  rw [allAir_get_block c hair x y z]
  exact propagateLight_dark_air c hair hdark f x y z

/-- Claim C10, amended: for a loaded all-air, dark chunk and a non-edge
column, `World.set_block` with `y` outside `[0, 256)` returns `True`
while `Chunk.set_block` silently discards the write, leaving the stored
chunk unchanged — a `True` return does not imply the block was stored. -/
theorem world_set_block_true_without_store
    (getHeight : Int → Int → Int) (fastNoise : Int → Int → Int → ℚ → Bool)
    (disk : ChunkPosition → Bool) (fuel : Nat) (w : World) (c : Chunk)
    (x y z : Int) (block : Block) (hfuel : 1 ≤ fuel)
    (hc : w.chunks (ChunkPosition.fromWorld x z) = some c)
    (hair : ∀ i, c.blockTypeArr i = BlockType.AIR.value)
    (hdark : ∀ i, c.blockLightArr i = 0)
    (hx : 1 ≤ x % 16 ∧ x % 16 ≤ 14) (hz : 1 ≤ z % 16 ∧ z % 16 ≤ 14)
    (hy : y < 0 ∨ 256 ≤ y) :
    World.set_block getHeight fastNoise disk fuel w x y z block =
      some (.ok (w.publish (ChunkPosition.fromWorld x z) c, true)) ∧
    (w.publish (ChunkPosition.fromWorld x z) c).chunks
        (ChunkPosition.fromWorld x z) = some c ∧
    c.set_block (x - (ChunkPosition.fromWorld x z).x * 16) y
        (z - (ChunkPosition.fromWorld x z).z * 16) block = c := by
  obtain ⟨f, rfl⟩ : ∃ f, fuel = f + 1 := ⟨fuel - 1, by omega⟩
  have hlx : x - (ChunkPosition.fromWorld x z).x * 16 = x % 16 := by
    unfold ChunkPosition.fromWorld CHUNK_WIDTH
    dsimp only
    omega
  have hlz : z - (ChunkPosition.fromWorld x z).z * 16 = z % 16 := by
    unfold ChunkPosition.fromWorld CHUNK_DEPTH
    dsimp only
    omega
  have hnb : ¬ Chunk.inBounds (x % 16) y (z % 16) := by
    unfold Chunk.inBounds CHUNK_WIDTH CHUNK_HEIGHT CHUNK_DEPTH
    omega
  have hset : c.set_block (x % 16) y (z % 16) block = c := by
    unfold Chunk.set_block
    rw [if_neg hnb]
  refine ⟨?_, ?_, ?_⟩
  · unfold World.set_block
    dsimp only
    rw [hc]
    dsimp only
    rw [bindO_ok]
    dsimp only
    rw [hlx, hlz, hset]
    rw [updateBlock_dark_air c hair hdark f (x % 16) y (z % 16)]
    rw [bindO_ok]
    rw [if_neg (by omega : ¬ x % 16 = 0), if_neg (by omega : ¬ x % 16 = 15)]
    rw [bindO_ok]
    rw [if_neg (by omega : ¬ z % 16 = 0), if_neg (by omega : ¬ z % 16 = 15)]
    rw [bindO_ok]
  · simp [World.publish]
  · rw [hlx, hlz]
    exact hset


/-- Witness for `world_set_block_true_without_store`: the one-chunk world
holding an all-air chunk, edited at the non-edge column (5, 5) with
`y = 300` — the call returns `True`, yet the chunk is unchanged and the
write was discarded. -/
theorem world_set_block_true_without_store_witness :
    World.set_block height300 fnoise0 (fun _ => false) 1 oneChunkWorld 5 300 5
        { block_type := .STONE } =
      some (.ok (oneChunkWorld.publish (ChunkPosition.fromWorld 5 5)
        (airChunk ⟨0, 0⟩), true)) ∧
    (oneChunkWorld.publish (ChunkPosition.fromWorld 5 5)
        (airChunk ⟨0, 0⟩)).chunks (ChunkPosition.fromWorld 5 5) =
      some (airChunk ⟨0, 0⟩) ∧
    (airChunk ⟨0, 0⟩).set_block (5 - (ChunkPosition.fromWorld 5 5).x * 16) 300
        (5 - (ChunkPosition.fromWorld 5 5).z * 16) { block_type := .STONE } =
      airChunk ⟨0, 0⟩ :=
  world_set_block_true_without_store height300 fnoise0 (fun _ => false) 1
    oneChunkWorld (airChunk ⟨0, 0⟩) 5 300 5 { block_type := .STONE }
    (by decide) rfl (fun i => rfl) (fun i => rfl)
    (by decide) (by decide) (by decide)
